import Mathlib

/-!
Shallow embedding of the Cron_nest push-notification worker (src/index.js).

The worker drains a `push_notification_queue` table: it fetches pending
records, marks each `processing` with an incremented `retry_count`, fans the
payload out to every `user_push_tokens` row of the recipient, deletes
permanently-gone subscriptions (HTTP 410/404), and finishes each record as
`sent`, `pending` (retry) or `failed`.  The external collaborators (Supabase
queue store, token registry, web-push transport) are modelled as explicit
state (lists of rows) plus an environment of oracles for the outcomes of the
delivery transport, JSON parsing of stored descriptors, and collaborator
faults.  A `calls` counter tracks how many collaborator invocations a cycle
issues.
-/

namespace CronNest

/-- Status column of a `push_notification_queue` row. -/
inductive Status
  | pending
  | processing
  | sent
  | failed
deriving DecidableEq, Repr

/-- A row of `push_notification_queue` as fetched by the worker
(src/index.js lines 101-106).  Timestamps are modelled as naturals. -/
structure Notification where
  id : Nat
  user_id : Nat
  title : String
  body : String
  status : Status
  retry_count : Nat
  max_retries : Nat
  error_message : Option String
  sent_at : Option Nat
  created_at : Nat
deriving DecidableEq, Repr

/-- A row of `user_push_tokens`: the owning user and the serialized
subscription descriptor (src/index.js lines 133-136). -/
structure TokenRow where
  user_id : Nat
  token : String
deriving DecidableEq, Repr

/-- Outcome of `JSON.parse(row.token)` followed by the truthiness test
`subscription && subscription.endpoint` (src/index.js lines 154-155).
`fail msg` models a parse exception; `value none` models a parsed value that
is falsy or lacks a truthy endpoint; `value (some e)` carries the endpoint. -/
inductive ParseResult
  | fail (msg : String)
  | value (endpoint : Option String)
deriving DecidableEq, Repr

/-- Outcome of `webPush.sendNotification` (src/index.js line 163): success, or
an exception carrying an optional HTTP status code. -/
inductive DeliveryResult
  | ok
  | fail (statusCode : Option Nat)
deriving DecidableEq, Repr

/-- Oracles for the external collaborators during one cycle: descriptor
parsing, delivery outcomes (keyed by descriptor), per-user token-fetch
errors, per-record unexpected faults (modelled as striking right after the
mark-processing update), whether the pending fetch itself errors, and the
current time used for `sent_at`. -/
structure Env where
  parse : String → ParseResult
  deliver : String → DeliveryResult
  tokenFetchError : Nat → Option String
  fault : Nat → Option String
  fetchFails : Bool
  now : Nat

/-- Configuration: `BATCH_LIMIT` and `RATE_LIMIT_MAX_QUEUE`
(src/index.js lines 30-32). -/
structure Config where
  batchLimit : Nat
  maxQueue : Nat
deriving DecidableEq, Repr

/-- Durable plus process-local state touched by one worker cycle: the queue
table, the token registry table, and `rateLimitState.queueSize`
(src/index.js lines 38-41; an integer mirroring the JS number). -/
structure SysState where
  queue : List Notification
  registry : List TokenRow
  queueSize : Int
deriving DecidableEq, Repr

/-- Accumulator of the per-notification loop: current tables plus the
`processed` / `sent` / `failed` counters (src/index.js lines 118-120) and the
count of collaborator calls issued so far. -/
structure BatchAcc where
  queue : List Notification
  registry : List TokenRow
  processed : Nat
  sent : Nat
  failed : Nat
  calls : Nat
deriving DecidableEq, Repr

/-- Supabase `update(...).eq('id', i)`: rewrite every queue row with id `i`. -/
def updateById (q : List Notification) (i : Nat) (f : Notification → Notification) :
    List Notification :=
  q.map fun r => if r.id = i then f r else r

/-- First queue row with the given id (row lookup used to state theorems). -/
def getRecord (q : List Notification) (i : Nat) : Option Notification :=
  q.find? fun r => r.id == i

/-- Field rewrite of src/index.js lines 127-130: status `processing`,
retry_count set from the fetched snapshot `n`, incremented by one. -/
def procUpdate (n : Notification) (r : Notification) : Notification :=
  { r with status := Status.processing, retry_count := n.retry_count + 1 }

/-- Field rewrite of src/index.js lines 82-85: status `failed` plus an error
message; no other field is touched. -/
def settleFailed (msg : String) (r : Notification) : Notification :=
  { r with status := Status.failed, error_message := some msg }

/-- Field rewrite of src/index.js lines 191-194: status `sent` plus a
timestamp. -/
def settleSent (t : Nat) (r : Notification) : Notification :=
  { r with status := Status.sent, sent_at := some t }

/-- Field rewrite of src/index.js lines 205-208: status back to `pending`
plus an error message; retry_count is NOT rewritten here. -/
def settlePending (msg : String) (r : Notification) : Notification :=
  { r with status := Status.pending, error_message := some msg }

/-- Update of src/index.js lines 125-131. -/
def markProcessing (q : List Notification) (n : Notification) : List Notification :=
  updateById q n.id (procUpdate n)

/-- Update of src/index.js lines 79-87 (the `markFailed` helper). -/
def markFailed (q : List Notification) (i : Nat) (msg : String) : List Notification :=
  updateById q i (settleFailed msg)

/-- Update of src/index.js lines 189-195. -/
def markSent (q : List Notification) (i : Nat) (t : Nat) : List Notification :=
  updateById q i (settleSent t)

/-- Update of src/index.js lines 203-209. -/
def resetPending (q : List Notification) (i : Nat) (msg : String) : List Notification :=
  updateById q i (settlePending msg)

/-- State threaded through the per-token loop of src/index.js lines 150-186:
the `tokenSent` / `tokenFailed` counters, the registry (mutated by deletes of
gone descriptors), and collaborator calls issued by the loop. -/
structure LoopState where
  tokenSent : Nat
  tokenFailed : Nat
  registry : List TokenRow
  calls : Nat
deriving DecidableEq, Repr

/-- The per-token loop (src/index.js lines 152-186).  It returns the final
loop state together with an optional abort message.  A descriptor that fails
to parse aborts the whole record: the catch block itself re-parses the token
(line 174) and the second parse exception propagates to the per-record
catch; the registry deletions already performed by earlier iterations stay
(they were awaited before the abort), so the state is returned alongside the
message.  A parsed descriptor without a truthy endpoint is skipped silently.
A delivery failure with status 410 or 404 deletes every registry row holding
that descriptor (lines 177-183). -/
def sendLoop (env : Env) : List TokenRow → LoopState → LoopState × Option String
  | [], ls => (ls, none)
  | row :: rest, ls =>
    match env.parse row.token with
    | ParseResult.fail msg => (ls, some msg)
    | ParseResult.value none => sendLoop env rest ls
    | ParseResult.value (some _) =>
      match env.deliver row.token with
      | DeliveryResult.ok =>
          sendLoop env rest
            { ls with tokenSent := ls.tokenSent + 1, calls := ls.calls + 1 }
      | DeliveryResult.fail sc =>
          if sc = some 410 ∨ sc = some 404 then
            sendLoop env rest
              { ls with tokenFailed := ls.tokenFailed + 1,
                        registry := ls.registry.filter fun t => t.token ≠ row.token,
                        calls := ls.calls + 2 }
          else
            sendLoop env rest
              { ls with tokenFailed := ls.tokenFailed + 1, calls := ls.calls + 1 }

/-- The registry rows of one user, as returned by the token select of
src/index.js lines 133-136. -/
def rowsOf (reg : List TokenRow) (uid : Nat) : List TokenRow :=
  reg.filter fun t => t.user_id == uid

/-- One iteration of the per-notification loop (src/index.js lines 121-222).
Mirrors the control flow: mark processing (with retry_count bumped by one
from the fetched snapshot), possibly hit an unexpected fault (the outer
catch, lines 217-222), fetch the recipient's token rows (an error or an empty
result both mark the record failed and `continue` BEFORE `processed++`), run
the token loop, then settle the record: `sent` if at least one token
succeeded, else reset to `pending` when the snapshot's retry_count is below
max_retries, else `failed`. -/
def processOne (env : Env) (s : BatchAcc) (n : Notification) : BatchAcc :=
  let s1 : BatchAcc := { s with queue := markProcessing s.queue n, calls := s.calls + 1 }
  match env.fault n.id with
  | some msg =>
      { s1 with queue := markFailed s1.queue n.id msg,
                failed := s1.failed + 1, processed := s1.processed + 1,
                calls := s1.calls + 1 }
  | none =>
    match env.tokenFetchError n.user_id with
    | some m =>
        { s1 with queue := markFailed s1.queue n.id (String.append "Token fetch error: " m),
                  failed := s1.failed + 1, calls := s1.calls + 2 }
    | none =>
      let rows := rowsOf s1.registry n.user_id
      if rows.isEmpty then
        { s1 with queue := markFailed s1.queue n.id "No push tokens found for user",
                  failed := s1.failed + 1, calls := s1.calls + 2 }
      else
        match sendLoop env rows (LoopState.mk 0 0 s1.registry 0) with
        | (ls, some msg) =>
            { s1 with queue := markFailed s1.queue n.id msg,
                      registry := ls.registry,
                      failed := s1.failed + 1, processed := s1.processed + 1,
                      calls := s1.calls + 1 + ls.calls + 1 }
        | (ls, none) =>
          let s2 : BatchAcc :=
            { s1 with registry := ls.registry, calls := s1.calls + 1 + ls.calls }
          if 0 < ls.tokenSent then
            { s2 with queue := markSent s2.queue n.id env.now,
                      sent := s2.sent + 1, processed := s2.processed + 1,
                      calls := s2.calls + 1 }
          else
            if n.retry_count < n.max_retries then
              { s2 with queue := resetPending s2.queue n.id
                          (String.append (String.append "All " (toString rows.length))
                            " tokens failed"),
                        processed := s2.processed + 1, calls := s2.calls + 1 }
            else
              { s2 with queue := markFailed s2.queue n.id
                          (String.append (String.append "All " (toString rows.length))
                            " tokens failed"),
                        failed := s2.failed + 1, processed := s2.processed + 1,
                        calls := s2.calls + 1 }

/-- The whole per-notification loop over a fetched batch. -/
def processBatch (env : Env) (s : BatchAcc) (batch : List Notification) : BatchAcc :=
  batch.foldl (processOne env) s

/-- The batch the worker fetches: pending rows, oldest first, capped at
`BATCH_LIMIT` (src/index.js lines 101-106).  The queue list is kept in
`created_at` order, so the fetch is a filter followed by `take`. -/
def batchOf (cfg : Config) (st : SysState) : List Notification :=
  (st.queue.filter fun r => r.status == Status.pending).take cfg.batchLimit

/-- Result of one worker cycle: final state, the returned counters and
message, and the number of collaborator calls issued. -/
structure CycleOut where
  state : SysState
  processed : Nat
  sent : Nat
  failed : Nat
  message : String
  calls : Nat
deriving DecidableEq, Repr

/-- One cycle of `processPushNotifications` (src/index.js lines 88-241).
Admission: refuse outright when `queueSize >= RATE_LIMIT_MAX_QUEUE` (line 91)
before any collaborator call.  Otherwise fetch; a fetch error or an empty
batch returns with no mutation.  Otherwise `queueSize` is set to the batch
length (line 116), the batch is processed, and finally
`queueSize = Math.max(0, queueSize - processed)` (line 231). -/
def processPushNotifications (cfg : Config) (env : Env) (st : SysState) : CycleOut :=
  if st.queueSize ≥ (cfg.maxQueue : Int) then
    { state := st, processed := 0, sent := 0, failed := 0,
      message := "Rate limit exceeded - queue full", calls := 0 }
  else if env.fetchFails then
    { state := st, processed := 0, sent := 0, failed := 0,
      message := "Failed to fetch pending notifications", calls := 1 }
  else
    let batch := batchOf cfg st
    if batch.isEmpty then
      { state := st, processed := 0, sent := 0, failed := 0,
        message := "No pending notifications", calls := 1 }
    else
      let acc := processBatch env (BatchAcc.mk st.queue st.registry 0 0 0 1) batch
      { state := { queue := acc.queue, registry := acc.registry,
                   queueSize := max 0 ((batch.length : Int) - (acc.processed : Int)) },
        processed := acc.processed, sent := acc.sent, failed := acc.failed,
        message := String.append "Processed "
          (String.append (toString acc.processed)
            (String.append " notifications ("
              (String.append (toString acc.sent)
                (String.append " sent, "
                  (String.append (toString acc.failed) " failed)"))))),
        calls := acc.calls }

/-!
Reminder Generator (src/index.js `runDailyNotifications`, lines 242-358):
overdue and due-soon gear requests are grouped per user, the item names are
deduplicated with a JS `Set` (first-occurrence order), and one queue insert
is made per user per reminder kind.  Dates are modelled as naturals in
`created_at`-style ordering; user ids as strings (Supabase UUIDs), so the JS
object used for grouping preserves insertion order of its keys.
-/

/-- One element of the `gears:gear_request_gears(gear_id, gears(name))` join:
the joined gear name, `none` when the relation row or name is null. -/
structure GearJoin where
  name : Option String
deriving DecidableEq, Repr

/-- A `gear_requests` row as selected by the daily job (src/index.js
lines 248-257): id, user, due date, status and the joined gear names. -/
structure GearRequest where
  id : Nat
  user_id : String
  due_date : Nat
  status : String
  gears : List GearJoin
deriving DecidableEq, Repr

/-- Item names of one request:
`request.gears?.map(g => g.gears?.name).filter(Boolean)` (line 267); the
`Boolean` filter drops null names and empty strings. -/
def gearNamesOf (r : GearRequest) : List String :=
  ((r.gears.map fun g => g.name).filterMap id).filter fun nm => nm ≠ ""

/-- Rows the overdue query returns: status `Approved`, due strictly before
today (src/index.js lines 248-257). -/
def overdueOf (today : Nat) (reqs : List GearRequest) : List GearRequest :=
  reqs.filter fun r => r.status == "Approved" && decide (r.due_date < today)

/-- One step of the grouping loop (src/index.js lines 262-269): append the
request's names to the user's entry, creating the entry on first sight. -/
def pushGroup (acc : List (String × List String)) (uid : String) (names : List String) :
    List (String × List String) :=
  if acc.any fun p => p.1 == uid then
    acc.map fun p => if p.1 == uid then (p.1, p.2 ++ names) else p
  else
    acc ++ [(uid, names)]

/-- Grouping of requests by `user_id` (the `userOverdue` / `userDueSoon`
object), in insertion order. -/
def groupByUser (reqs : List GearRequest) : List (String × List String) :=
  reqs.foldl (fun acc r => pushGroup acc r.user_id (gearNamesOf r)) []

/-- One step of `[...new Set(l)]`: keep the element only on first sight. -/
def setInsert (acc : List String) (x : String) : List String :=
  if x ∈ acc then acc else acc ++ [x]

/-- `[...new Set(l)]` (src/index.js line 272): distinct elements in
first-occurrence order. -/
def setDedup (l : List String) : List String :=
  l.foldl setInsert []

/-- A row inserted into `push_notification_queue` by the daily job; `dataType`
is the `type` tag inside the `data` payload. -/
structure QueueInsert where
  user_id : String
  title : String
  body : String
  dataType : String
deriving DecidableEq, Repr

/-- The inserts of the overdue sub-task (src/index.js lines 260-279): one per
grouped user, body listing the deduplicated comma-joined names. -/
def overdueInserts (today : Nat) (reqs : List GearRequest) : List QueueInsert :=
  (groupByUser (overdueOf today reqs)).map fun p =>
    { user_id := p.1, title := "Overdue Equipment Return",
      body := String.append "Please return the following overdue equipment: "
        (String.intercalate ", " (setDedup p.2)),
      dataType := "overdue_reminder" }

/-- Rows the due-soon query returns: status `Approved`, due date between
today and two days from now inclusive (src/index.js lines 283-294); with
dates modelled as day numbers, `twoDaysFromNow` is `today + 2`. -/
def dueSoonOf (today : Nat) (reqs : List GearRequest) : List GearRequest :=
  reqs.filter fun r => r.status == "Approved" && decide (today ≤ r.due_date) &&
    decide (r.due_date ≤ today + 2)

/-- The inserts of the due-soon sub-task (src/index.js lines 297-315): the
same per-user grouping and `Set` dedup as the overdue sub-task, with the
due-soon title, body prefix and `due_soon_reminder` tag. -/
def dueSoonInserts (today : Nat) (reqs : List GearRequest) : List QueueInsert :=
  (groupByUser (dueSoonOf today reqs)).map fun p =>
    { user_id := p.1, title := "Equipment Due Soon",
      body := String.append "Please return the following equipment soon: "
        (String.intercalate ", " (setDedup p.2)),
      dataType := "due_soon_reminder" }

/-- Concatenated item names of every selected request of one user, in request
order: what the grouping loop accumulates for that user. -/
def flatNames (uid : String) (reqs : List GearRequest) : List String :=
  ((reqs.filter fun r => r.user_id == uid).map gearNamesOf).flatten

/-!  Helper lemmas about the row-update primitives.  -/

theorem getRecord_updateById (q : List Notification) (i : Nat)
    (f : Notification → Notification) (hf : ∀ r, (f r).id = r.id) :
    getRecord (updateById q i f) i = (getRecord q i).map f := by
  induction q with
  | nil => rfl
  | cons a q ih =>
    by_cases h : a.id = i
    · have hfa : (f a).id = i := by rw [hf a, h]
      simp [updateById, getRecord, h, hfa]
    · simp only [updateById, List.map_cons, if_neg h, getRecord]
      rw [List.find?_cons_of_neg _ (by simp [h]), List.find?_cons_of_neg _ (by simp [h])]
      simpa [updateById, getRecord] using ih

theorem updateById_comp (q : List Notification) (i : Nat)
    (f g : Notification → Notification) (hf : ∀ r, (f r).id = r.id) :
    updateById (updateById q i f) i g = updateById q i fun r => g (f r) := by
  unfold updateById
  rw [List.map_map]
  apply List.map_congr_left
  intro a _
  by_cases h : a.id = i
  · simp [Function.comp, h, hf]
  · simp [Function.comp, h]

theorem updateById_map_id (q : List Notification) (i : Nat)
    (f : Notification → Notification) (hf : ∀ r, (f r).id = r.id) :
    (updateById q i f).map (fun r => r.id) = q.map fun r => r.id := by
  unfold updateById
  rw [List.map_map]
  apply List.map_congr_left
  intro a _
  by_cases h : a.id = i
  · simp [Function.comp, h, hf]
  · simp [Function.comp, h]

/-!  Branch equations for `processOne`, one per control-flow path of the
per-notification loop.  -/

theorem processOne_fault (env : Env) (s : BatchAcc) (n : Notification) (msg : String)
    (h : env.fault n.id = some msg) :
    processOne env s n =
      { queue := markFailed (markProcessing s.queue n) n.id msg,
        registry := s.registry, processed := s.processed + 1, sent := s.sent,
        failed := s.failed + 1, calls := s.calls + 2 } := by
  simp only [processOne, h]

theorem processOne_tokenErr (env : Env) (s : BatchAcc) (n : Notification) (m : String)
    (h0 : env.fault n.id = none) (h1 : env.tokenFetchError n.user_id = some m) :
    processOne env s n =
      { queue := markFailed (markProcessing s.queue n) n.id
          (String.append "Token fetch error: " m),
        registry := s.registry, processed := s.processed, sent := s.sent,
        failed := s.failed + 1, calls := s.calls + 3 } := by
  simp only [processOne, h0, h1]

theorem processOne_noTokens (env : Env) (s : BatchAcc) (n : Notification)
    (h0 : env.fault n.id = none) (h1 : env.tokenFetchError n.user_id = none)
    (h2 : rowsOf s.registry n.user_id = []) :
    processOne env s n =
      { queue := markFailed (markProcessing s.queue n) n.id "No push tokens found for user",
        registry := s.registry, processed := s.processed, sent := s.sent,
        failed := s.failed + 1, calls := s.calls + 3 } := by
  simp only [processOne, h0, h1, h2, List.isEmpty_nil, if_true]

theorem processOne_abort (env : Env) (s : BatchAcc) (n : Notification) (ls : LoopState)
    (msg : String)
    (h0 : env.fault n.id = none) (h1 : env.tokenFetchError n.user_id = none)
    (h2 : (rowsOf s.registry n.user_id).isEmpty = false)
    (h3 : sendLoop env (rowsOf s.registry n.user_id) (LoopState.mk 0 0 s.registry 0) =
      (ls, some msg)) :
    processOne env s n =
      { queue := markFailed (markProcessing s.queue n) n.id msg,
        registry := ls.registry, processed := s.processed + 1, sent := s.sent,
        failed := s.failed + 1, calls := s.calls + 2 + ls.calls + 1 } := by
  simp only [processOne, h0, h1, h2, h3, Bool.false_eq_true, if_false]

theorem processOne_sendOk (env : Env) (s : BatchAcc) (n : Notification) (ls : LoopState)
    (h0 : env.fault n.id = none) (h1 : env.tokenFetchError n.user_id = none)
    (h2 : (rowsOf s.registry n.user_id).isEmpty = false)
    (h3 : sendLoop env (rowsOf s.registry n.user_id) (LoopState.mk 0 0 s.registry 0) =
      (ls, none))
    (h4 : 0 < ls.tokenSent) :
    processOne env s n =
      { queue := markSent (markProcessing s.queue n) n.id env.now,
        registry := ls.registry, processed := s.processed + 1, sent := s.sent + 1,
        failed := s.failed, calls := s.calls + 2 + ls.calls + 1 } := by
  simp only [processOne, h0, h1, h2, h3, h4, Bool.false_eq_true, if_false, if_true]

theorem processOne_retry (env : Env) (s : BatchAcc) (n : Notification) (ls : LoopState)
    (h0 : env.fault n.id = none) (h1 : env.tokenFetchError n.user_id = none)
    (h2 : (rowsOf s.registry n.user_id).isEmpty = false)
    (h3 : sendLoop env (rowsOf s.registry n.user_id) (LoopState.mk 0 0 s.registry 0) =
      (ls, none))
    (h4 : ls.tokenSent = 0) (h5 : n.retry_count < n.max_retries) :
    processOne env s n =
      { queue := resetPending (markProcessing s.queue n) n.id
          (String.append (String.append "All " (toString (rowsOf s.registry n.user_id).length))
            " tokens failed"),
        registry := ls.registry, processed := s.processed + 1, sent := s.sent,
        failed := s.failed, calls := s.calls + 2 + ls.calls + 1 } := by
  simp only [processOne, h0, h1, h2, h3, h4, h5, Bool.false_eq_true, if_false, if_true,
    Nat.lt_irrefl]

theorem processOne_exhausted (env : Env) (s : BatchAcc) (n : Notification) (ls : LoopState)
    (h0 : env.fault n.id = none) (h1 : env.tokenFetchError n.user_id = none)
    (h2 : (rowsOf s.registry n.user_id).isEmpty = false)
    (h3 : sendLoop env (rowsOf s.registry n.user_id) (LoopState.mk 0 0 s.registry 0) =
      (ls, none))
    (h4 : ls.tokenSent = 0) (h5 : ¬ n.retry_count < n.max_retries) :
    processOne env s n =
      { queue := markFailed (markProcessing s.queue n) n.id
          (String.append (String.append "All " (toString (rowsOf s.registry n.user_id).length))
            " tokens failed"),
        registry := ls.registry, processed := s.processed + 1, sent := s.sent,
        failed := s.failed + 1, calls := s.calls + 2 + ls.calls + 1 } := by
  simp only [processOne, h0, h1, h2, h3, h4, h5, Bool.false_eq_true, if_false, if_true,
    Nat.lt_irrefl]

/-- Exhaustive case analysis of `processOne`: exactly one of the seven
control-flow paths applies, each with its branch equation. -/
theorem processOne_shape (env : Env) (s : BatchAcc) (n : Notification) :
    (∃ msg, env.fault n.id = some msg ∧
      processOne env s n =
        { queue := markFailed (markProcessing s.queue n) n.id msg,
          registry := s.registry, processed := s.processed + 1, sent := s.sent,
          failed := s.failed + 1, calls := s.calls + 2 }) ∨
    (env.fault n.id = none ∧ ∃ m, env.tokenFetchError n.user_id = some m ∧
      processOne env s n =
        { queue := markFailed (markProcessing s.queue n) n.id
            (String.append "Token fetch error: " m),
          registry := s.registry, processed := s.processed, sent := s.sent,
          failed := s.failed + 1, calls := s.calls + 3 }) ∨
    (env.fault n.id = none ∧ env.tokenFetchError n.user_id = none ∧
      rowsOf s.registry n.user_id = [] ∧
      processOne env s n =
        { queue := markFailed (markProcessing s.queue n) n.id "No push tokens found for user",
          registry := s.registry, processed := s.processed, sent := s.sent,
          failed := s.failed + 1, calls := s.calls + 3 }) ∨
    (env.fault n.id = none ∧ env.tokenFetchError n.user_id = none ∧
      rowsOf s.registry n.user_id ≠ [] ∧ ∃ ls msg,
      sendLoop env (rowsOf s.registry n.user_id) (LoopState.mk 0 0 s.registry 0) =
        (ls, some msg) ∧
      processOne env s n =
        { queue := markFailed (markProcessing s.queue n) n.id msg,
          registry := ls.registry, processed := s.processed + 1, sent := s.sent,
          failed := s.failed + 1, calls := s.calls + 2 + ls.calls + 1 }) ∨
    (env.fault n.id = none ∧ env.tokenFetchError n.user_id = none ∧
      rowsOf s.registry n.user_id ≠ [] ∧ ∃ ls,
      sendLoop env (rowsOf s.registry n.user_id) (LoopState.mk 0 0 s.registry 0) =
        (ls, none) ∧ 0 < ls.tokenSent ∧
      processOne env s n =
        { queue := markSent (markProcessing s.queue n) n.id env.now,
          registry := ls.registry, processed := s.processed + 1, sent := s.sent + 1,
          failed := s.failed, calls := s.calls + 2 + ls.calls + 1 }) ∨
    (env.fault n.id = none ∧ env.tokenFetchError n.user_id = none ∧
      rowsOf s.registry n.user_id ≠ [] ∧ ∃ ls,
      sendLoop env (rowsOf s.registry n.user_id) (LoopState.mk 0 0 s.registry 0) =
        (ls, none) ∧ ls.tokenSent = 0 ∧ n.retry_count < n.max_retries ∧
      processOne env s n =
        { queue := resetPending (markProcessing s.queue n) n.id
            (String.append (String.append "All " (toString (rowsOf s.registry n.user_id).length))
              " tokens failed"),
          registry := ls.registry, processed := s.processed + 1, sent := s.sent,
          failed := s.failed, calls := s.calls + 2 + ls.calls + 1 }) ∨
    (env.fault n.id = none ∧ env.tokenFetchError n.user_id = none ∧
      rowsOf s.registry n.user_id ≠ [] ∧ ∃ ls,
      sendLoop env (rowsOf s.registry n.user_id) (LoopState.mk 0 0 s.registry 0) =
        (ls, none) ∧ ls.tokenSent = 0 ∧ ¬ n.retry_count < n.max_retries ∧
      processOne env s n =
        { queue := markFailed (markProcessing s.queue n) n.id
            (String.append (String.append "All " (toString (rowsOf s.registry n.user_id).length))
              " tokens failed"),
          registry := ls.registry, processed := s.processed + 1, sent := s.sent,
          failed := s.failed + 1, calls := s.calls + 2 + ls.calls + 1 }) := by
  cases h0 : env.fault n.id with
  | some msg =>
    exact Or.inl ⟨msg, rfl, processOne_fault env s n msg h0⟩
  | none =>
  cases h1 : env.tokenFetchError n.user_id with
  | some m =>
    exact Or.inr (Or.inl ⟨rfl, m, rfl, processOne_tokenErr env s n m h0 h1⟩)
  | none =>
  by_cases h2 : rowsOf s.registry n.user_id = []
  · exact Or.inr (Or.inr (Or.inl ⟨rfl, rfl, h2, processOne_noTokens env s n h0 h1 h2⟩))
  · have h2' : (rowsOf s.registry n.user_id).isEmpty = false := by
      simpa [List.isEmpty_eq_false] using h2
    rcases h3 : sendLoop env (rowsOf s.registry n.user_id) (LoopState.mk 0 0 s.registry 0)
      with ⟨ls, _ | msg⟩
    · by_cases h4 : 0 < ls.tokenSent
      · exact Or.inr (Or.inr (Or.inr (Or.inr (Or.inl
          ⟨rfl, rfl, h2, ls, rfl, h4, processOne_sendOk env s n ls h0 h1 h2' h3 h4⟩))))
      · have h4' : ls.tokenSent = 0 := by omega
        by_cases h5 : n.retry_count < n.max_retries
        · exact Or.inr (Or.inr (Or.inr (Or.inr (Or.inr (Or.inl
            ⟨rfl, rfl, h2, ls, rfl, h4', h5, processOne_retry env s n ls h0 h1 h2' h3 h4' h5⟩)))))
        · exact Or.inr (Or.inr (Or.inr (Or.inr (Or.inr (Or.inr
            ⟨rfl, rfl, h2, ls, rfl, h4', h5,
              processOne_exhausted env s n ls h0 h1 h2' h3 h4' h5⟩)))))
    · exact Or.inr (Or.inr (Or.inr (Or.inl
        ⟨rfl, rfl, h2, ls, msg, rfl, processOne_abort env s n ls msg h0 h1 h2' h3⟩)))

theorem processBatch_cons (env : Env) (s : BatchAcc) (n : Notification)
    (tl : List Notification) :
    processBatch env s (n :: tl) = processBatch env (processOne env s n) tl := rfl

theorem processBatch_append (env : Env) (s : BatchAcc) (l1 l2 : List Notification) :
    processBatch env s (l1 ++ l2) = processBatch env (processBatch env s l1) l2 := by
  unfold processBatch
  simp [List.foldl_append]

theorem processOne_calls_le (env : Env) (s : BatchAcc) (n : Notification) :
    s.calls ≤ (processOne env s n).calls := by
  rcases processOne_shape env s n with ⟨msg, _, heq⟩ | ⟨_, m, _, heq⟩ | ⟨_, _, _, heq⟩ |
    ⟨_, _, _, ls, msg, _, heq⟩ | ⟨_, _, _, ls, _, _, heq⟩ | ⟨_, _, _, ls, _, _, _, heq⟩ |
    ⟨_, _, _, ls, _, _, _, heq⟩ <;> rw [heq] <;> dsimp only <;> omega

theorem processBatch_calls_le (env : Env) (batch : List Notification) :
    ∀ s : BatchAcc, s.calls ≤ (processBatch env s batch).calls := by
  induction batch with
  | nil => intro s; exact Nat.le_refl _
  | cons n tl ih =>
    intro s
    rw [processBatch_cons]
    exact Nat.le_trans (processOne_calls_le env s n) (ih (processOne env s n))

/-- The per-record loop body completes (and bumps `processed`) exactly when
the record neither hits an unexpected fault nor takes one of the two early
`continue`s (token fetch error, zero token rows); a faulted record is still
counted as processed by the catch handler. -/
theorem processOne_processed_char (env : Env) (s : BatchAcc) (n : Notification) :
    (processOne env s n).processed =
      if env.fault n.id = none ∧
          ((env.tokenFetchError n.user_id).isSome = true ∨ rowsOf s.registry n.user_id = [])
      then s.processed else s.processed + 1 := by
  rcases processOne_shape env s n with ⟨msg, hf, heq⟩ | ⟨hf, m, ht, heq⟩ | ⟨hf, ht, hr, heq⟩ |
    ⟨hf, ht, hr, ls, msg, _, heq⟩ | ⟨hf, ht, hr, ls, _, _, heq⟩ | ⟨hf, ht, hr, ls, _, _, _, heq⟩ |
    ⟨hf, ht, hr, ls, _, _, _, heq⟩ <;> rw [heq] <;> dsimp only
  · rw [if_neg]; simp [hf]
  · rw [if_pos ⟨hf, Or.inl (by simp [ht])⟩]
  · rw [if_pos ⟨hf, Or.inr hr⟩]
  · rw [if_neg]; simp [hf, ht, hr]
  · rw [if_neg]; simp [hf, ht, hr]
  · rw [if_neg]; simp [hf, ht, hr]
  · rw [if_neg]; simp [hf, ht, hr]

/-- Per-record bounds needed for the retry-count invariant. -/
def Pbounds (r : Notification) : Prop :=
  (r.status = Status.pending → r.retry_count ≤ r.max_retries) ∧
  r.retry_count ≤ r.max_retries + 1

/-- Queue invariant: distinct row ids, every pending row still has retries
available, and no row's retry_count ever exceeds max_retries + 1. -/
def QInv (q : List Notification) : Prop :=
  ((q.map fun r => r.id).Nodup) ∧ ∀ r ∈ q, Pbounds r

/-- Whatever path `processOne` takes, its effect on the queue is a single
id-targeted rewrite: the processing update composed with one settling update
that preserves id, retry_count and max_retries, and that produces a `pending`
row only on the retry path. -/
theorem processOne_queue_shape (env : Env) (s : BatchAcc) (n : Notification) :
    ∃ f : Notification → Notification,
      (processOne env s n).queue = updateById s.queue n.id (fun r => f (procUpdate n r)) ∧
      (∀ r, (f r).id = r.id) ∧ (∀ r, (f r).retry_count = r.retry_count) ∧
      (∀ r, (f r).max_retries = r.max_retries) ∧
      (∀ r, (f r).status = Status.pending → n.retry_count < n.max_retries) ∧
      (∀ r, (f r).status = Status.sent ∨ (f r).status = Status.pending ∨
        (f r).status = Status.failed) := by
  rcases processOne_shape env s n with ⟨msg, hf, heq⟩ | ⟨hf, m, ht, heq⟩ | ⟨hf, ht, hr, heq⟩ |
    ⟨hf, ht, hr, ls, msg, hs, heq⟩ | ⟨hf, ht, hr, ls, hs, hts, heq⟩ |
    ⟨hf, ht, hr, ls, hs, hts, hrc, heq⟩ | ⟨hf, ht, hr, ls, hs, hts, hrc, heq⟩
  · refine ⟨settleFailed msg, ?_, fun r => rfl, fun r => rfl, fun r => rfl,
      fun r h => by simp [settleFailed] at h, fun r => Or.inr (Or.inr rfl)⟩
    rw [heq]
    show markFailed (markProcessing s.queue n) n.id msg = _
    rw [markFailed, markProcessing, updateById_comp s.queue n.id (procUpdate n) _ fun r => rfl]
  · refine ⟨settleFailed (String.append "Token fetch error: " m), ?_, fun r => rfl,
      fun r => rfl, fun r => rfl, fun r h => by simp [settleFailed] at h,
      fun r => Or.inr (Or.inr rfl)⟩
    rw [heq]
    show markFailed (markProcessing s.queue n) n.id _ = _
    rw [markFailed, markProcessing, updateById_comp s.queue n.id (procUpdate n) _ fun r => rfl]
  · refine ⟨settleFailed "No push tokens found for user", ?_, fun r => rfl, fun r => rfl,
      fun r => rfl, fun r h => by simp [settleFailed] at h,
      fun r => Or.inr (Or.inr rfl)⟩
    rw [heq]
    show markFailed (markProcessing s.queue n) n.id _ = _
    rw [markFailed, markProcessing, updateById_comp s.queue n.id (procUpdate n) _ fun r => rfl]
  · refine ⟨settleFailed msg, ?_, fun r => rfl, fun r => rfl, fun r => rfl,
      fun r h => by simp [settleFailed] at h, fun r => Or.inr (Or.inr rfl)⟩
    rw [heq]
    show markFailed (markProcessing s.queue n) n.id msg = _
    rw [markFailed, markProcessing, updateById_comp s.queue n.id (procUpdate n) _ fun r => rfl]
  · refine ⟨settleSent env.now, ?_, fun r => rfl, fun r => rfl, fun r => rfl,
      fun r h => by simp [settleSent] at h, fun r => Or.inl rfl⟩
    rw [heq]
    show markSent (markProcessing s.queue n) n.id env.now = _
    rw [markSent, markProcessing, updateById_comp s.queue n.id (procUpdate n) _ fun r => rfl]
  · refine ⟨settlePending (String.append
      (String.append "All " (toString (rowsOf s.registry n.user_id).length)) " tokens failed"),
      ?_, fun r => rfl, fun r => rfl, fun r => rfl, fun r _ => hrc,
      fun r => Or.inr (Or.inl rfl)⟩
    rw [heq]
    show resetPending (markProcessing s.queue n) n.id _ = _
    rw [resetPending, markProcessing, updateById_comp s.queue n.id (procUpdate n) _ fun r => rfl]
  · refine ⟨settleFailed (String.append
      (String.append "All " (toString (rowsOf s.registry n.user_id).length)) " tokens failed"),
      ?_, fun r => rfl, fun r => rfl, fun r => rfl, fun r h => by simp [settleFailed] at h,
      fun r => Or.inr (Or.inr rfl)⟩
    rw [heq]
    show markFailed (markProcessing s.queue n) n.id _ = _
    rw [markFailed, markProcessing, updateById_comp s.queue n.id (procUpdate n) _ fun r => rfl]

/-- `processOne` does not change the id column of the queue. -/
theorem processOne_ids (env : Env) (s : BatchAcc) (n : Notification) :
    ((processOne env s n).queue.map fun r => r.id) = s.queue.map fun r => r.id := by
  obtain ⟨f, heq, hfid, -, -, -, -⟩ := processOne_queue_shape env s n
  rw [heq]
  exact updateById_map_id s.queue n.id _ fun r => by rw [hfid]; rfl

/-- Pointwise preservation of the retry bounds by one `processOne` step, for
a snapshot `n` that still has retries available and whose id determines its
max_retries in the current queue. -/
theorem pbounds_processOne (env : Env) (s : BatchAcc) (n : Notification)
    (hb : n.retry_count ≤ n.max_retries)
    (hq : ∀ r ∈ s.queue, Pbounds r)
    (hid : ∀ r ∈ s.queue, r.id = n.id → r.max_retries = n.max_retries) :
    ∀ r ∈ (processOne env s n).queue, Pbounds r := by
  obtain ⟨f, heq, hfid, hfrc, hfmax, hfpend, hfst⟩ := processOne_queue_shape env s n
  rw [heq]
  intro r hr
  rw [updateById] at hr
  obtain ⟨a, ha, rfl⟩ := List.mem_map.mp hr
  by_cases h : a.id = n.id
  · rw [if_pos h]
    have hmax : (f (procUpdate n a)).max_retries = a.max_retries := by
      rw [hfmax]; rfl
    have hrc : (f (procUpdate n a)).retry_count = n.retry_count + 1 := by
      rw [hfrc]; rfl
    constructor
    · intro hp
      have hlt := hfpend _ hp
      have := hid a ha h
      omega
    · have := hid a ha h
      omega
  · rw [if_neg h]
    exact hq a ha

/-- Preservation of the queue invariant data across a whole batch: the id
column is untouched and the retry bounds hold for every row afterwards. -/
theorem qinv_processBatch (env : Env) (batch : List Notification) :
    ∀ s : BatchAcc,
      (∀ r ∈ s.queue, Pbounds r) →
      (∀ n ∈ batch, n.retry_count ≤ n.max_retries) →
      (∀ n ∈ batch, ∀ r ∈ s.queue, r.id = n.id → r.max_retries = n.max_retries) →
      (((processBatch env s batch).queue.map fun r => r.id) = s.queue.map fun r => r.id) ∧
      ∀ r ∈ (processBatch env s batch).queue, Pbounds r := by
  induction batch with
  | nil => exact fun s h2 _ _ => ⟨rfl, h2⟩
  | cons n0 tl ih =>
    intro s h2 h3 h4
    rw [processBatch_cons]
    have hids := processOne_ids env s n0
    have hpb := pbounds_processOne env s n0 (h3 n0 (by simp)) h2
      (fun r hr h => h4 n0 (by simp) r hr h)
    have hmax : ∀ n ∈ tl, ∀ r ∈ (processOne env s n0).queue,
        r.id = n.id → r.max_retries = n.max_retries := by
      intro n hn r hr h
      obtain ⟨f, heq, hfid, hfrc, hfmax, -, -⟩ := processOne_queue_shape env s n0
      rw [heq, updateById] at hr
      obtain ⟨a, ha, rfl⟩ := List.mem_map.mp hr
      by_cases hcase : a.id = n0.id
      · rw [if_pos hcase] at h ⊢
        rw [hfid] at h
        rw [hfmax]
        exact h4 n (by simp [hn]) a ha h
      · rw [if_neg hcase] at h ⊢
        exact h4 n (by simp [hn]) a ha h
    obtain ⟨hA, hB⟩ := ih (processOne env s n0) hpb (fun n hn => h3 n (by simp [hn])) hmax
    exact ⟨by rw [hA, hids], hB⟩

/-- Rows of the fetched batch are pending rows of the stored queue. -/
theorem mem_batchOf (cfg : Config) (st : SysState) (n : Notification)
    (h : n ∈ batchOf cfg st) : n ∈ st.queue ∧ n.status = Status.pending := by
  unfold batchOf at h
  have h1 := List.mem_of_mem_take h
  have h2 := List.mem_filter.mp h1
  exact ⟨h2.1, by simpa using h2.2⟩

/-- The queue invariant is preserved by one whole worker cycle. -/
theorem qinv_cycle (cfg : Config) (env : Env) (st : SysState) (h : QInv st.queue) :
    QInv (processPushNotifications cfg env st).state.queue := by
  unfold processPushNotifications
  by_cases hrl : st.queueSize ≥ (cfg.maxQueue : Int)
  · rw [if_pos hrl]; exact h
  · rw [if_neg hrl]
    by_cases hff : env.fetchFails = true
    · simp only [hff, if_true]; exact h
    · simp only [eq_false_of_ne_true hff, Bool.false_eq_true, if_false]
      by_cases hbe : (batchOf cfg st).isEmpty = true
      · simp only [hbe, if_true]; exact h
      · simp only [hbe, Bool.false_eq_true, if_false]
        obtain ⟨hN, hP⟩ := h
        have h3 : ∀ n ∈ batchOf cfg st, n.retry_count ≤ n.max_retries := by
          intro n hn
          obtain ⟨hq, hst⟩ := mem_batchOf cfg st n hn
          exact (hP n hq).1 hst
        have h4 : ∀ n ∈ batchOf cfg st, ∀ r ∈ st.queue,
            r.id = n.id → r.max_retries = n.max_retries := by
          intro n hn r hr hid
          have hnq := (mem_batchOf cfg st n hn).1
          have := List.inj_on_of_nodup_map hN hr hnq hid
          rw [this]
        obtain ⟨hA, hB⟩ := qinv_processBatch env (batchOf cfg st)
          (BatchAcc.mk st.queue st.registry 0 0 0 1) hP h3 h4
        exact ⟨by rw [hA]; exact hN, hB⟩

/-- Lookup of the processed row after the processing update composed with a
settling update `g`. -/
theorem getRecord_mark_two (q : List Notification) (n : Notification)
    (g : Notification → Notification) (hg : ∀ r, (g r).id = r.id)
    (h : getRecord q n.id = some n) :
    getRecord (updateById (markProcessing q n) n.id g) n.id = some (g (procUpdate n n)) := by
  rw [markProcessing, updateById_comp q n.id (procUpdate n) g fun r => rfl,
      getRecord_updateById q n.id _ fun r => by rw [hg]; rfl, h]
  rfl

/-- Each processing attempt bumps the stored retry_count by exactly one and
settles the row in `sent`, `pending` or `failed`. -/
theorem processOne_attempt (env : Env) (s : BatchAcc) (n : Notification)
    (h : getRecord s.queue n.id = some n) :
    ∃ r, getRecord (processOne env s n).queue n.id = some r ∧
      r.retry_count = n.retry_count + 1 ∧
      (r.status = Status.sent ∨ r.status = Status.pending ∨ r.status = Status.failed) := by
  obtain ⟨f, heq, hfid, hfrc, hfmax, hfpend, hfst⟩ := processOne_queue_shape env s n
  refine ⟨f (procUpdate n n), ?_, ?_, hfst _⟩
  · rw [heq, getRecord_updateById s.queue n.id _ fun r => by rw [hfid]; rfl, h]
    rfl
  · rw [hfrc]; rfl

/-- When every descriptor of the fetched rows parses, the token loop cannot
abort, and it ends with a positive `tokenSent` exactly when it started
positive or some row has an endpoint and delivers successfully. -/
theorem sendLoop_total (env : Env) (rows : List TokenRow)
    (hp : ∀ row ∈ rows, ∀ m, env.parse row.token ≠ ParseResult.fail m) :
    ∀ ls : LoopState, ∃ ls', sendLoop env rows ls = (ls', none) ∧
      (0 < ls'.tokenSent ↔ 0 < ls.tokenSent ∨ ∃ row ∈ rows,
        (∃ e, env.parse row.token = ParseResult.value (some e)) ∧
        env.deliver row.token = DeliveryResult.ok) := by
  induction rows with
  | nil =>
    intro ls
    exact ⟨ls, rfl, by simp⟩
  | cons row rest ih =>
    intro ls
    have hp' : ∀ r ∈ rest, ∀ m, env.parse r.token ≠ ParseResult.fail m :=
      fun r hr => hp r (List.mem_cons_of_mem _ hr)
    cases hparse : env.parse row.token with
    | fail m => exact absurd hparse (hp row (List.mem_cons_self _ _) m)
    | value e =>
      cases e with
      | none =>
        obtain ⟨ls', hrun, hiff⟩ := ih hp' ls
        refine ⟨ls', by simp [sendLoop, hparse, hrun], ?_⟩
        rw [hiff]
        constructor
        · rintro (hl | ⟨r, hr, hs⟩)
          · exact Or.inl hl
          · exact Or.inr ⟨r, List.mem_cons_of_mem _ hr, hs⟩
        · rintro (hl | ⟨r, hr, hs⟩)
          · exact Or.inl hl
          · rcases List.mem_cons.mp hr with rfl | hr'
            · obtain ⟨⟨e', he'⟩, -⟩ := hs
              rw [hparse] at he'
              cases he'
            · exact Or.inr ⟨r, hr', hs⟩
      | some e0 =>
        cases hdel : env.deliver row.token with
        | ok =>
          obtain ⟨ls', hrun, hiff⟩ :=
            ih hp' { ls with tokenSent := ls.tokenSent + 1, calls := ls.calls + 1 }
          refine ⟨ls', by simp [sendLoop, hparse, hdel, hrun], ?_⟩
          constructor
          · intro _
            exact Or.inr ⟨row, List.mem_cons_self _ _, ⟨e0, hparse⟩, hdel⟩
          · intro _
            rw [hiff]
            exact Or.inl (Nat.succ_pos _)
        | fail sc =>
          by_cases hsc : sc = some 410 ∨ sc = some 404
          · obtain ⟨ls', hrun, hiff⟩ := ih hp'
              { ls with tokenFailed := ls.tokenFailed + 1,
                        registry := ls.registry.filter fun t => t.token ≠ row.token,
                        calls := ls.calls + 2 }
            refine ⟨ls', ?_, ?_⟩
            · show sendLoop env (row :: rest) ls = (ls', none)
              simp only [sendLoop, hparse, hdel]
              rw [if_pos hsc]
              exact hrun
            rw [hiff]
            constructor
            · rintro (hl | ⟨r, hr, hs⟩)
              · exact Or.inl hl
              · exact Or.inr ⟨r, List.mem_cons_of_mem _ hr, hs⟩
            · rintro (hl | ⟨r, hr, hs⟩)
              · exact Or.inl hl
              · rcases List.mem_cons.mp hr with rfl | hr'
                · obtain ⟨-, hd⟩ := hs
                  rw [hdel] at hd
                  cases hd
                · exact Or.inr ⟨r, hr', hs⟩
          · obtain ⟨ls', hrun, hiff⟩ := ih hp'
              { ls with tokenFailed := ls.tokenFailed + 1, calls := ls.calls + 1 }
            refine ⟨ls', ?_, ?_⟩
            · show sendLoop env (row :: rest) ls = (ls', none)
              simp only [sendLoop, hparse, hdel]
              rw [if_neg hsc]
              exact hrun
            rw [hiff]
            constructor
            · rintro (hl | ⟨r, hr, hs⟩)
              · exact Or.inl hl
              · exact Or.inr ⟨r, List.mem_cons_of_mem _ hr, hs⟩
            · rintro (hl | ⟨r, hr, hs⟩)
              · exact Or.inl hl
              · rcases List.mem_cons.mp hr with rfl | hr'
                · obtain ⟨-, hd⟩ := hs
                  rw [hdel] at hd
                  cases hd
                · exact Or.inr ⟨r, hr', hs⟩

/-- Rows that parse to a value without a truthy endpoint are skipped without
any delivery attempt, counter change, registry change, or collaborator call. -/
theorem sendLoop_skipAll (env : Env) (rows : List TokenRow)
    (h : ∀ row ∈ rows, env.parse row.token = ParseResult.value none) :
    ∀ ls : LoopState, sendLoop env rows ls = (ls, none) := by
  induction rows with
  | nil => intro ls; rfl
  | cons row rest ih =>
    intro ls
    have hrow := h row (List.mem_cons_self _ _)
    simp [sendLoop, hrow, ih fun r hr => h r (List.mem_cons_of_mem _ hr)]

/-!  Concrete fixtures used by counterexamples and witnesses.  -/

/-- Environment in which every stored descriptor parses with an endpoint and
every delivery fails with a transient HTTP 500. -/
def envTransient : Env :=
  Env.mk (fun _ => ParseResult.value (some "ep")) (fun _ => DeliveryResult.fail (some 500))
    (fun _ => none) (fun _ => none) false 99

/-- A pending record one attempt away from the retry bound:
retry_count = max_retries - 1 = 2. -/
def recNearMax : Notification :=
  Notification.mk 1 7 "t" "b" Status.pending 2 3 none none 0

/-- A pending record at the retry bound: retry_count = max_retries = 3. -/
def recAtMax : Notification :=
  Notification.mk 1 7 "t" "b" Status.pending 3 3 none none 0

/-- Default configuration: BATCH_LIMIT 10, RATE_LIMIT_MAX_QUEUE 1000. -/
def cfgDefault : Config := Config.mk 10 1000

/-- A one-row registry for user 7. -/
def regSingle : List TokenRow := [TokenRow.mk 7 "tokA"]

/-- C5.  Whenever the Batch Processor starts with the rate-limit estimate at
or above the ceiling, and only then, the cycle returns immediately with
processed = 0 and the rate-limit-exceeded message, makes zero collaborator
calls and leaves the queue store, device registry and estimate untouched;
when admitted, the cycle makes at least one collaborator call and never
returns the rate-limit-exceeded message. -/
theorem c5_rate_limit_skip (cfg : Config) (env : Env) (st : SysState) :
    (st.queueSize ≥ (cfg.maxQueue : Int) →
      processPushNotifications cfg env st =
        CycleOut.mk st 0 0 0 "Rate limit exceeded - queue full" 0) ∧
    (¬ st.queueSize ≥ (cfg.maxQueue : Int) →
      (processPushNotifications cfg env st).message ≠ "Rate limit exceeded - queue full" ∧
      1 ≤ (processPushNotifications cfg env st).calls) := by
  constructor
  · intro h
    unfold processPushNotifications
    rw [if_pos h]
  · intro h
    unfold processPushNotifications
    rw [if_neg h]
    by_cases hff : env.fetchFails = true
    · rw [if_pos hff]
      refine ⟨?_, ?_⟩ <;> dsimp only <;> decide
    · rw [if_neg hff]
      by_cases hbe : (batchOf cfg st).isEmpty = true
      · rw [if_pos hbe]
        refine ⟨?_, ?_⟩ <;> dsimp only <;> decide
      · rw [if_neg hbe]
        dsimp only
        refine ⟨?_, ?_⟩
        · intro hx
          have h2 : (String.append "Processed "
              (String.append (toString (processBatch env
                  (BatchAcc.mk st.queue st.registry 0 0 0 1) (batchOf cfg st)).processed)
                (String.append " notifications ("
                  (String.append (toString (processBatch env
                      (BatchAcc.mk st.queue st.registry 0 0 0 1) (batchOf cfg st)).sent)
                    (String.append " sent, "
                      (String.append (toString (processBatch env
                          (BatchAcc.mk st.queue st.registry 0 0 0 1)
                          (batchOf cfg st)).failed) " failed)")))))).data.head? =
              some 'P' := rfl
          rw [hx] at h2
          exact absurd h2 (by decide)
        · exact processBatch_calls_le env (batchOf cfg st) (BatchAcc.mk st.queue st.registry 0 0 0 1)

/-- Closed witness for C5 at concrete inputs: a full estimate (1000) is
refused with no calls and no state change, and an estimate of 0 is admitted
with at least one call and a different message. -/
theorem c5_witness :
    (processPushNotifications cfgDefault envTransient
        (SysState.mk [recNearMax] regSingle 1000) =
      CycleOut.mk (SysState.mk [recNearMax] regSingle 1000) 0 0 0
        "Rate limit exceeded - queue full" 0) ∧
    ((processPushNotifications cfgDefault envTransient
        (SysState.mk [recNearMax] regSingle 0)).message ≠
      "Rate limit exceeded - queue full" ∧
      1 ≤ (processPushNotifications cfgDefault envTransient
        (SysState.mk [recNearMax] regSingle 0)).calls) :=
  ⟨(c5_rate_limit_skip cfgDefault envTransient
      (SysState.mk [recNearMax] regSingle 1000)).1 (by decide),
   (c5_rate_limit_skip cfgDefault envTransient
      (SysState.mk [recNearMax] regSingle 0)).2 (by decide)⟩

/-- C6.  A record whose recipient has zero registered subscriptions is marked
failed in the very cycle that picks it up, with the no-devices message, its
retry_count merely bumped by the processing update, regardless of
retry_count versus max_retries; and a failed record is never fetched into a
later batch, so it is never reset to pending for retry. -/
theorem c6_no_devices (env : Env) (s : BatchAcc) (n : Notification)
    (h : getRecord s.queue n.id = some n)
    (h0 : env.fault n.id = none) (h1 : env.tokenFetchError n.user_id = none)
    (h2 : rowsOf s.registry n.user_id = []) :
    (∃ r, getRecord (processOne env s n).queue n.id = some r ∧
      r.status = Status.failed ∧
      r.error_message = some "No push tokens found for user" ∧
      r.retry_count = n.retry_count + 1 ∧ r.status ≠ Status.pending) ∧
    (processOne env s n).failed = s.failed + 1 ∧
    (processOne env s n).registry = s.registry ∧
    ∀ cfg st r, r.status = Status.failed → r ∉ batchOf cfg st := by
  have heq := processOne_noTokens env s n h0 h1 h2
  refine ⟨⟨settleFailed "No push tokens found for user" (procUpdate n n), ?_, rfl, rfl, rfl,
    by simp [settleFailed]⟩, by rw [heq], by rw [heq], ?_⟩
  · rw [heq]
    show getRecord (markFailed (markProcessing s.queue n) n.id _) n.id = _
    rw [markFailed]
    exact getRecord_mark_two s.queue n _ (fun r => rfl) h
  · intro cfg st r hr hmem
    have := (mem_batchOf cfg st r hmem).2
    rw [hr] at this
    cases this

/-- Closed witness for C6: a record already past its retry bound
(retry_count = max_retries = 3) with an empty registry still ends failed with
the no-devices message. -/
theorem c6_witness :
    (∃ r, getRecord (processOne envTransient
        (BatchAcc.mk [recAtMax] [] 0 0 0 1) recAtMax).queue recAtMax.id = some r ∧
      r.status = Status.failed ∧
      r.error_message = some "No push tokens found for user" ∧
      r.retry_count = recAtMax.retry_count + 1 ∧ r.status ≠ Status.pending) ∧
    (processOne envTransient (BatchAcc.mk [recAtMax] [] 0 0 0 1) recAtMax).failed = 0 + 1 ∧
    (processOne envTransient (BatchAcc.mk [recAtMax] [] 0 0 0 1) recAtMax).registry = [] ∧
    ∀ cfg st r, r.status = Status.failed → r ∉ batchOf cfg st :=
  c6_no_devices envTransient (BatchAcc.mk [recAtMax] [] 0 0 0 1) recAtMax
    (by decide) rfl rfl rfl

/-- C9.  An unexpected fault while processing one record is caught by the
per-record catch handler: the record is forced to terminal failed with the
fault's description as its error message, the failed and processed counters
are bumped, and the loop then continues with exactly the remaining records of
the batch. -/
theorem c9_fault_isolated (env : Env) (s : BatchAcc) (n : Notification) (msg : String)
    (l2 : List Notification) (h : getRecord s.queue n.id = some n)
    (hf : env.fault n.id = some msg) :
    (∃ r, getRecord (processOne env s n).queue n.id = some r ∧
      r.status = Status.failed ∧ r.error_message = some msg) ∧
    (processOne env s n).failed = s.failed + 1 ∧
    (processOne env s n).processed = s.processed + 1 ∧
    processBatch env s (n :: l2) = processBatch env (processOne env s n) l2 := by
  have heq := processOne_fault env s n msg hf
  refine ⟨⟨settleFailed msg (procUpdate n n), ?_, rfl, rfl⟩,
    by rw [heq], by rw [heq], processBatch_cons env s n l2⟩
  rw [heq]
  show getRecord (markFailed (markProcessing s.queue n) n.id msg) n.id = _
  rw [markFailed]
  exact getRecord_mark_two s.queue n _ (fun r => rfl) h

/-- Environment whose only anomaly is an unexpected fault on record 1. -/
def envFaulty : Env :=
  Env.mk (fun _ => ParseResult.value (some "ep")) (fun _ => DeliveryResult.ok)
    (fun _ => none) (fun i => if i = 1 then some "boom" else none) false 99

/-- Closed witness for C9: record 1 faults with message "boom", ends failed
with that message, and the batch fold continues over the sibling list. -/
theorem c9_witness :
    (∃ r, getRecord (processOne envFaulty
        (BatchAcc.mk [recNearMax] regSingle 0 0 0 1) recNearMax).queue recNearMax.id =
        some r ∧ r.status = Status.failed ∧ r.error_message = some "boom") ∧
    (processOne envFaulty (BatchAcc.mk [recNearMax] regSingle 0 0 0 1) recNearMax).failed =
      0 + 1 ∧
    (processOne envFaulty (BatchAcc.mk [recNearMax] regSingle 0 0 0 1) recNearMax).processed =
      0 + 1 ∧
    processBatch envFaulty (BatchAcc.mk [recNearMax] regSingle 0 0 0 1) (recNearMax :: []) =
      processBatch envFaulty (processOne envFaulty
        (BatchAcc.mk [recNearMax] regSingle 0 0 0 1) recNearMax) [] :=
  c9_fault_isolated envFaulty (BatchAcc.mk [recNearMax] regSingle 0 0 0 1) recNearMax
    "boom" [] (by decide) rfl

/-- C10.  A subscription row whose descriptor parses to a value without a
truthy endpoint is skipped silently: no delivery is attempted for it and it
counts as neither a successful nor a failed delivery.  When all of a
recipient's rows are such, the token loop finishes untouched (counters 0/0,
registry and call count unchanged) and the record takes the
all-deliveries-failed path: reset to pending when retries remain, else
failed, with the error message claiming all tokens failed. -/
theorem c10_endpointless_rows (env : Env) (s : BatchAcc) (n : Notification)
    (h : getRecord s.queue n.id = some n)
    (h0 : env.fault n.id = none) (h1 : env.tokenFetchError n.user_id = none)
    (h2 : rowsOf s.registry n.user_id ≠ [])
    (h3 : ∀ row ∈ rowsOf s.registry n.user_id,
      env.parse row.token = ParseResult.value none) :
    sendLoop env (rowsOf s.registry n.user_id) (LoopState.mk 0 0 s.registry 0) =
      (LoopState.mk 0 0 s.registry 0, none) ∧
    (∃ r, getRecord (processOne env s n).queue n.id = some r ∧
      r.error_message = some (String.append (String.append "All "
        (toString (rowsOf s.registry n.user_id).length)) " tokens failed") ∧
      r.retry_count = n.retry_count + 1 ∧
      (n.retry_count < n.max_retries → r.status = Status.pending) ∧
      (¬ n.retry_count < n.max_retries → r.status = Status.failed)) ∧
    (processOne env s n).registry = s.registry ∧
    (processOne env s n).sent = s.sent := by
  have hloop := sendLoop_skipAll env (rowsOf s.registry n.user_id) h3
    (LoopState.mk 0 0 s.registry 0)
  have h2' : (rowsOf s.registry n.user_id).isEmpty = false := by
    simpa [List.isEmpty_eq_false] using h2
  refine ⟨hloop, ?_, ?_, ?_⟩
  · by_cases h5 : n.retry_count < n.max_retries
    · have heq := processOne_retry env s n (LoopState.mk 0 0 s.registry 0)
        h0 h1 h2' hloop rfl h5
      refine ⟨settlePending (String.append (String.append "All "
        (toString (rowsOf s.registry n.user_id).length)) " tokens failed") (procUpdate n n),
        ?_, rfl, rfl, fun _ => rfl, fun hc => absurd h5 hc⟩
      rw [heq]
      show getRecord (resetPending (markProcessing s.queue n) n.id _) n.id = _
      rw [resetPending]
      exact getRecord_mark_two s.queue n _ (fun r => rfl) h
    · have heq := processOne_exhausted env s n (LoopState.mk 0 0 s.registry 0)
        h0 h1 h2' hloop rfl h5
      refine ⟨settleFailed (String.append (String.append "All "
        (toString (rowsOf s.registry n.user_id).length)) " tokens failed") (procUpdate n n),
        ?_, rfl, rfl, fun hc => absurd hc h5, fun _ => rfl⟩
      rw [heq]
      show getRecord (markFailed (markProcessing s.queue n) n.id _) n.id = _
      rw [markFailed]
      exact getRecord_mark_two s.queue n _ (fun r => rfl) h
  · by_cases h5 : n.retry_count < n.max_retries
    · rw [processOne_retry env s n (LoopState.mk 0 0 s.registry 0) h0 h1 h2' hloop rfl h5]
    · rw [processOne_exhausted env s n (LoopState.mk 0 0 s.registry 0) h0 h1 h2' hloop rfl h5]
  · by_cases h5 : n.retry_count < n.max_retries
    · rw [processOne_retry env s n (LoopState.mk 0 0 s.registry 0) h0 h1 h2' hloop rfl h5]
    · rw [processOne_exhausted env s n (LoopState.mk 0 0 s.registry 0) h0 h1 h2' hloop rfl h5]

/-- Environment whose descriptors all parse to endpoint-less values. -/
def envNoEndpoint : Env :=
  Env.mk (fun _ => ParseResult.value none) (fun _ => DeliveryResult.ok)
    (fun _ => none) (fun _ => none) false 99

/-- Closed witness for C10: one endpoint-less row, record with retries left
is reset to pending with the "All 1 tokens failed" message. -/
theorem c10_witness :
    sendLoop envNoEndpoint (rowsOf regSingle recNearMax.user_id)
      (LoopState.mk 0 0 regSingle 0) = (LoopState.mk 0 0 regSingle 0, none) ∧
    (∃ r, getRecord (processOne envNoEndpoint
        (BatchAcc.mk [recNearMax] regSingle 0 0 0 1) recNearMax).queue recNearMax.id =
        some r ∧
      r.error_message = some (String.append (String.append "All "
        (toString (rowsOf regSingle recNearMax.user_id).length)) " tokens failed") ∧
      r.retry_count = recNearMax.retry_count + 1 ∧
      (recNearMax.retry_count < recNearMax.max_retries → r.status = Status.pending) ∧
      (¬ recNearMax.retry_count < recNearMax.max_retries → r.status = Status.failed)) ∧
    (processOne envNoEndpoint (BatchAcc.mk [recNearMax] regSingle 0 0 0 1)
      recNearMax).registry = regSingle ∧
    (processOne envNoEndpoint (BatchAcc.mk [recNearMax] regSingle 0 0 0 1)
      recNearMax).sent = 0 :=
  c10_endpointless_rows envNoEndpoint (BatchAcc.mk [recNearMax] regSingle 0 0 0 1)
    recNearMax (by decide) rfl rfl (by decide) (by decide)

/-- C3.  For a processed record whose recipient has at least one subscription
row, all of which parse, the record is marked sent with a sent_at timestamp
if and only if at least one endpoint-bearing row delivers successfully in
that attempt — however many sibling deliveries failed, and wherever in the
fan-out the success sits (a failure on one subscription never prevents the
attempts on its successors). -/
theorem c3_sent_iff_one_success (env : Env) (s : BatchAcc) (n : Notification)
    (h : getRecord s.queue n.id = some n)
    (h0 : env.fault n.id = none) (h1 : env.tokenFetchError n.user_id = none)
    (h2 : rowsOf s.registry n.user_id ≠ [])
    (h3 : ∀ row ∈ rowsOf s.registry n.user_id, ∀ m,
      env.parse row.token ≠ ParseResult.fail m) :
    ∃ r, getRecord (processOne env s n).queue n.id = some r ∧
      ((r.status = Status.sent ∧ r.sent_at = some env.now) ↔
        ∃ row ∈ rowsOf s.registry n.user_id,
          (∃ e, env.parse row.token = ParseResult.value (some e)) ∧
          env.deliver row.token = DeliveryResult.ok) := by
  obtain ⟨ls, hrun, hiff⟩ := sendLoop_total env _ h3 (LoopState.mk 0 0 s.registry 0)
  have h2' : (rowsOf s.registry n.user_id).isEmpty = false := by
    simpa [List.isEmpty_eq_false] using h2
  by_cases hts : 0 < ls.tokenSent
  · have hsucc : ∃ row ∈ rowsOf s.registry n.user_id,
        (∃ e, env.parse row.token = ParseResult.value (some e)) ∧
        env.deliver row.token = DeliveryResult.ok := by
      rcases hiff.mp hts with h' | h'
      · exact absurd h' (by simp)
      · exact h'
    have heq := processOne_sendOk env s n ls h0 h1 h2' hrun hts
    refine ⟨settleSent env.now (procUpdate n n), ?_, iff_of_true ⟨rfl, rfl⟩ hsucc⟩
    rw [heq]
    show getRecord (markSent (markProcessing s.queue n) n.id env.now) n.id = _
    rw [markSent]
    exact getRecord_mark_two s.queue n _ (fun r => rfl) h
  · have hts0 : ls.tokenSent = 0 := by omega
    have hnosucc : ¬ ∃ row ∈ rowsOf s.registry n.user_id,
        (∃ e, env.parse row.token = ParseResult.value (some e)) ∧
        env.deliver row.token = DeliveryResult.ok :=
      fun hs => hts (hiff.mpr (Or.inr hs))
    by_cases h5 : n.retry_count < n.max_retries
    · have heq := processOne_retry env s n ls h0 h1 h2' hrun hts0 h5
      refine ⟨settlePending (String.append (String.append "All "
        (toString (rowsOf s.registry n.user_id).length)) " tokens failed") (procUpdate n n),
        ?_, iff_of_false (fun hc => by simpa [settlePending] using hc.1) hnosucc⟩
      rw [heq]
      show getRecord (resetPending (markProcessing s.queue n) n.id _) n.id = _
      rw [resetPending]
      exact getRecord_mark_two s.queue n _ (fun r => rfl) h
    · have heq := processOne_exhausted env s n ls h0 h1 h2' hrun hts0 h5
      refine ⟨settleFailed (String.append (String.append "All "
        (toString (rowsOf s.registry n.user_id).length)) " tokens failed") (procUpdate n n),
        ?_, iff_of_false (fun hc => by simpa [settleFailed] using hc.1) hnosucc⟩
      rw [heq]
      show getRecord (markFailed (markProcessing s.queue n) n.id _) n.id = _
      rw [markFailed]
      exact getRecord_mark_two s.queue n _ (fun r => rfl) h

/-- Environment for the C3 witness: two descriptors, the first fails with a
transient 500, the second delivers. -/
def envSecondOk : Env :=
  Env.mk (fun _ => ParseResult.value (some "ep"))
    (fun t => if t = "tokB" then DeliveryResult.ok else DeliveryResult.fail (some 500))
    (fun _ => none) (fun _ => none) false 99

/-- Two-row registry for user 7. -/
def regPair : List TokenRow := [TokenRow.mk 7 "tokA", TokenRow.mk 7 "tokB"]

/-- Closed witness for C3: with rows [tokA (fails 500), tokB (delivers)], the
record is sent — the sibling failure did not prevent the second attempt. -/
theorem c3_witness :
    ∃ r, getRecord (processOne envSecondOk
        (BatchAcc.mk [recNearMax] regPair 0 0 0 1) recNearMax).queue recNearMax.id =
      some r ∧
      ((r.status = Status.sent ∧ r.sent_at = some envSecondOk.now) ↔
        ∃ row ∈ rowsOf regPair recNearMax.user_id,
          (∃ e, envSecondOk.parse row.token = ParseResult.value (some e)) ∧
          envSecondOk.deliver row.token = DeliveryResult.ok) :=
  c3_sent_iff_one_success envSecondOk (BatchAcc.mk [recNearMax] regPair 0 0 0 1)
    recNearMax (by decide) rfl rfl (by decide)
    (by intro row hrow m; simp [envSecondOk])

/-- C7.  Recipient with rows [t1, t2]: t1's delivery throws with HTTP 410 or
404 and t2's succeeds.  The record ends sent with a timestamp, every registry
row carrying t1's descriptor is deleted, and t2's row survives.  The deletion
is performed inside the token loop, before and independently of the record's
own outcome. -/
theorem c7_gone_descriptor_pruned (env : Env) (s : BatchAcc) (n : Notification)
    (t1 t2 : TokenRow) (e1 e2 : String) (sc : Option Nat)
    (h : getRecord s.queue n.id = some n)
    (h0 : env.fault n.id = none) (h1 : env.tokenFetchError n.user_id = none)
    (hrows : rowsOf s.registry n.user_id = [t1, t2])
    (hp1 : env.parse t1.token = ParseResult.value (some e1))
    (hd1 : env.deliver t1.token = DeliveryResult.fail sc)
    (hsc : sc = some 410 ∨ sc = some 404)
    (hp2 : env.parse t2.token = ParseResult.value (some e2))
    (hd2 : env.deliver t2.token = DeliveryResult.ok)
    (htok : t2.token ≠ t1.token) :
    (∃ r, getRecord (processOne env s n).queue n.id = some r ∧
      r.status = Status.sent ∧ r.sent_at = some env.now) ∧
    (processOne env s n).registry = s.registry.filter (fun t => t.token ≠ t1.token) ∧
    t2 ∈ (processOne env s n).registry ∧
    (∀ t ∈ (processOne env s n).registry, t.token ≠ t1.token) := by
  have hloop : sendLoop env (rowsOf s.registry n.user_id) (LoopState.mk 0 0 s.registry 0) =
      (LoopState.mk 1 1 (s.registry.filter fun t => t.token ≠ t1.token) 3, none) := by
    rw [hrows]
    simp only [sendLoop, hp1, hd1]
    rw [if_pos hsc]
    simp only [sendLoop, hp2, hd2]
  have h2' : (rowsOf s.registry n.user_id).isEmpty = false := by rw [hrows]; rfl
  have heq := processOne_sendOk env s n
    (LoopState.mk 1 1 (s.registry.filter fun t => t.token ≠ t1.token) 3)
    h0 h1 h2' hloop Nat.one_pos
  have hreg : (processOne env s n).registry =
      s.registry.filter (fun t => t.token ≠ t1.token) := by rw [heq]
  have ht2reg : t2 ∈ s.registry := by
    have : t2 ∈ rowsOf s.registry n.user_id := by rw [hrows]; simp
    exact List.mem_of_mem_filter this
  refine ⟨⟨settleSent env.now (procUpdate n n), ?_, rfl, rfl⟩, hreg, ?_, ?_⟩
  · rw [heq]
    show getRecord (markSent (markProcessing s.queue n) n.id env.now) n.id = _
    rw [markSent]
    exact getRecord_mark_two s.queue n _ (fun r => rfl) h
  · rw [hreg]
    exact List.mem_filter.mpr ⟨ht2reg, by simp [htok]⟩
  · intro t ht
    rw [hreg] at ht
    simpa using (List.mem_filter.mp ht).2

/-- Environment for the C7 witness: tokA throws 410, tokB delivers. -/
def envGoneA : Env :=
  Env.mk (fun _ => ParseResult.value (some "ep"))
    (fun t => if t = "tokA" then DeliveryResult.fail (some 410) else DeliveryResult.ok)
    (fun _ => none) (fun _ => none) false 99

/-- Closed witness for C7 at the concrete two-device registry. -/
theorem c7_witness :
    (∃ r, getRecord (processOne envGoneA
        (BatchAcc.mk [recNearMax] regPair 0 0 0 1) recNearMax).queue recNearMax.id =
      some r ∧ r.status = Status.sent ∧ r.sent_at = some envGoneA.now) ∧
    (processOne envGoneA (BatchAcc.mk [recNearMax] regPair 0 0 0 1) recNearMax).registry =
      regPair.filter (fun t => t.token ≠ (TokenRow.mk 7 "tokA").token) ∧
    TokenRow.mk 7 "tokB" ∈ (processOne envGoneA
      (BatchAcc.mk [recNearMax] regPair 0 0 0 1) recNearMax).registry ∧
    (∀ t ∈ (processOne envGoneA (BatchAcc.mk [recNearMax] regPair 0 0 0 1)
      recNearMax).registry, t.token ≠ (TokenRow.mk 7 "tokA").token) :=
  c7_gone_descriptor_pruned envGoneA (BatchAcc.mk [recNearMax] regPair 0 0 0 1) recNearMax
    (TokenRow.mk 7 "tokA") (TokenRow.mk 7 "tokB") "ep" "ep" (some 410)
    (by decide) rfl rfl (by decide) rfl rfl (Or.inl rfl) rfl rfl (by decide)

/-- C1 counterexample.  A record with retry_count = max_retries - 1 = 2
before the attempt, whose only delivery fails transiently, is reset to
pending with retry_count = 3 — not marked failed as the claim's scenario
asserts: the retry test (line 201) compares the pre-increment snapshot, so
2 < 3 still grants a retry. -/
theorem c1_counterexample :
    (getRecord (processPushNotifications cfgDefault envTransient
        (SysState.mk [recNearMax] regSingle 0)).state.queue 1).map
      (fun r => (r.status, r.retry_count, r.max_retries)) =
      some (Status.pending, 3, 3) ∧
    Status.pending ≠ Status.failed :=
  ⟨by decide, by decide⟩

/-- C1 amended.  For a fetched record whose fan-out has at least one row, all
rows parsing and none delivering successfully, the stored retry_count becomes
the pre-attempt count plus one, and the record is reset to pending exactly
when the pre-attempt retry_count is below max_retries — in particular a
record at retry_count = max_retries - 1 ends pending with retry_count =
max_retries, and only a record whose pre-attempt retry_count already reached
max_retries is marked failed (with stored retry_count = max_retries + 1). -/
theorem c1_amended_retry_boundary (env : Env) (s : BatchAcc) (n : Notification)
    (h : getRecord s.queue n.id = some n)
    (h0 : env.fault n.id = none) (h1 : env.tokenFetchError n.user_id = none)
    (h2 : rowsOf s.registry n.user_id ≠ [])
    (h3 : ∀ row ∈ rowsOf s.registry n.user_id, ∀ m,
      env.parse row.token ≠ ParseResult.fail m)
    (h4 : ∀ row ∈ rowsOf s.registry n.user_id,
      env.deliver row.token ≠ DeliveryResult.ok) :
    ∃ r, getRecord (processOne env s n).queue n.id = some r ∧
      r.retry_count = n.retry_count + 1 ∧
      (n.retry_count < n.max_retries → r.status = Status.pending) ∧
      (¬ n.retry_count < n.max_retries → r.status = Status.failed) := by
  obtain ⟨ls, hrun, hiff⟩ := sendLoop_total env _ h3 (LoopState.mk 0 0 s.registry 0)
  have h2' : (rowsOf s.registry n.user_id).isEmpty = false := by
    simpa [List.isEmpty_eq_false] using h2
  have hts : ¬ 0 < ls.tokenSent := by
    intro hpos
    rcases hiff.mp hpos with h' | ⟨row, hr, -, hd⟩
    · exact absurd h' (by simp)
    · exact h4 row hr hd
  have hts0 : ls.tokenSent = 0 := by omega
  by_cases h5 : n.retry_count < n.max_retries
  · have heq := processOne_retry env s n ls h0 h1 h2' hrun hts0 h5
    refine ⟨settlePending (String.append (String.append "All "
      (toString (rowsOf s.registry n.user_id).length)) " tokens failed") (procUpdate n n),
      ?_, rfl, fun _ => rfl, fun hc => absurd h5 hc⟩
    rw [heq]
    show getRecord (resetPending (markProcessing s.queue n) n.id _) n.id = _
    rw [resetPending]
    exact getRecord_mark_two s.queue n _ (fun r => rfl) h
  · have heq := processOne_exhausted env s n ls h0 h1 h2' hrun hts0 h5
    refine ⟨settleFailed (String.append (String.append "All "
      (toString (rowsOf s.registry n.user_id).length)) " tokens failed") (procUpdate n n),
      ?_, rfl, fun hc => absurd hc h5, fun _ => rfl⟩
    rw [heq]
    show getRecord (markFailed (markProcessing s.queue n) n.id _) n.id = _
    rw [markFailed]
    exact getRecord_mark_two s.queue n _ (fun r => rfl) h

/-- Closed witness for the amended C1 at retry_count = max_retries - 1 = 2:
the record is reset to pending with retry_count = 3. -/
theorem c1_witness :
    ∃ r, getRecord (processOne envTransient
        (BatchAcc.mk [recNearMax] regSingle 0 0 0 1) recNearMax).queue recNearMax.id =
      some r ∧
      r.retry_count = recNearMax.retry_count + 1 ∧
      (recNearMax.retry_count < recNearMax.max_retries → r.status = Status.pending) ∧
      (¬ recNearMax.retry_count < recNearMax.max_retries → r.status = Status.failed) :=
  c1_amended_retry_boundary envTransient (BatchAcc.mk [recNearMax] regSingle 0 0 0 1)
    recNearMax (by decide) rfl rfl (by decide)
    (by intro row hrow m; simp [envTransient])
    (by intro row hrow; simp [envTransient])

/-- C2 counterexample.  A record fetched while pending with retry_count =
max_retries = 3 whose delivery fails is marked failed with stored
retry_count = 4 > max_retries: the bound claimed by the invariant is
exceeded by one. -/
theorem c2_counterexample :
    (getRecord (processPushNotifications cfgDefault envTransient
        (SysState.mk [recAtMax] regSingle 0)).state.queue 1).map
      (fun r => (r.status, r.retry_count, r.max_retries)) =
      some (Status.failed, 4, 3) ∧
    ¬ ((4 : Nat) ≤ 3) :=
  ⟨by decide, by decide⟩

/-- C2 amended.  Across any sequence of cycles: row ids stay distinct, every
pending row has retry_count ≤ max_retries, every row (hence every failed
row) has retry_count ≤ max_retries + 1 — the bound is max_retries + 1, not
max_retries; and each processing attempt bumps the stored retry_count by
exactly one and settles the attempted row in sent, pending or failed. -/
theorem c2_amended_invariant :
    (∀ cfg env st, QInv st.queue → QInv (processPushNotifications cfg env st).state.queue) ∧
    (∀ env s n, getRecord s.queue n.id = some n →
      ∃ r, getRecord (processOne env s n).queue n.id = some r ∧
        r.retry_count = n.retry_count + 1 ∧
        (r.status = Status.sent ∨ r.status = Status.pending ∨ r.status = Status.failed)) :=
  ⟨qinv_cycle, processOne_attempt⟩

instance (r : Notification) : Decidable (Pbounds r) := by
  unfold Pbounds
  infer_instance

instance (q : List Notification) : Decidable (QInv q) := by
  unfold QInv
  infer_instance

/-- Closed witness for the amended C2 at a concrete state satisfying the
invariant, and a concrete processing attempt. -/
theorem c2_witness :
    QInv (processPushNotifications cfgDefault envTransient
      (SysState.mk [recNearMax] regSingle 0)).state.queue ∧
    ∃ r, getRecord (processOne envTransient
        (BatchAcc.mk [recNearMax] regSingle 0 0 0 1) recNearMax).queue recNearMax.id =
      some r ∧
      r.retry_count = recNearMax.retry_count + 1 ∧
      (r.status = Status.sent ∨ r.status = Status.pending ∨ r.status = Status.failed) :=
  ⟨c2_amended_invariant.1 cfgDefault envTransient (SysState.mk [recNearMax] regSingle 0)
      ⟨by decide, by decide⟩,
   c2_amended_invariant.2 envTransient (BatchAcc.mk [recNearMax] regSingle 0 0 0 1)
      recNearMax (by decide)⟩

/-- C4 counterexample.  A cycle that picks up one record whose recipient has
no tokens: the record reaches terminal failed (so the claim's k = 1), yet the
final estimate is 1, not max(0, previous − 1) = 0 — whether "previous" is
read as the start-of-cycle estimate (0) or the fetched count (1).  The
`continue` at line 147 skips `processed++`, so the release subtracts 0. -/
theorem c4_counterexample :
    (processPushNotifications cfgDefault envTransient
        (SysState.mk [recNearMax] [] 0)).state.queueSize = 1 ∧
    ((processPushNotifications cfgDefault envTransient
        (SysState.mk [recNearMax] [] 0)).state.queue.filter
      (fun r => r.status == Status.failed)).length = 1 ∧
    (1 : Int) ≠ max 0 ((0 : Int) - 1) ∧
    (1 : Int) ≠ max 0 ((1 : Int) - 1) :=
  ⟨by decide, by decide, by decide, by decide⟩

/-- C4 amended.  At the end of a completed cycle the estimate equals
max(0, fetchedCount − processed), where `processed` counts exactly the
records whose loop body ran to completion — including records reset to
pending for retry and records failed by the catch handler, and excluding
records failed early for a token-fetch error or zero subscriptions; the
start-of-cycle estimate does not participate, having been overwritten by the
fetched count. -/
theorem c4_amended_release (cfg : Config) (env : Env) (st : SysState)
    (h : ¬ st.queueSize ≥ (cfg.maxQueue : Int)) (hff : env.fetchFails = false)
    (hbe : (batchOf cfg st).isEmpty = false) :
    ((processPushNotifications cfg env st).state.queueSize =
      max 0 (((batchOf cfg st).length : Int) -
        ((processPushNotifications cfg env st).processed : Int))) ∧
    ∀ env2 s n, (processOne env2 s n).processed =
      if env2.fault n.id = none ∧
          ((env2.tokenFetchError n.user_id).isSome = true ∨ rowsOf s.registry n.user_id = [])
      then s.processed else s.processed + 1 := by
  constructor
  · unfold processPushNotifications
    rw [if_neg h, if_neg (by simp [hff]), if_neg (by simp [hbe])]
  · exact fun env2 s n => processOne_processed_char env2 s n

/-- Closed witness for the amended C4 at the no-token cycle: the estimate is
max(0, 1 − 0) = 1 because the only record was skipped before `processed++`. -/
theorem c4_witness :
    ((processPushNotifications cfgDefault envTransient
        (SysState.mk [recNearMax] [] 0)).state.queueSize =
      max 0 (((batchOf cfgDefault (SysState.mk [recNearMax] [] 0)).length : Int) -
        ((processPushNotifications cfgDefault envTransient
          (SysState.mk [recNearMax] [] 0)).processed : Int))) ∧
    ∀ env2 s n, (processOne env2 s n).processed =
      if env2.fault n.id = none ∧
          ((env2.tokenFetchError n.user_id).isSome = true ∨ rowsOf s.registry n.user_id = [])
      then s.processed else s.processed + 1 :=
  c4_amended_release cfgDefault envTransient (SysState.mk [recNearMax] [] 0)
    (by decide) rfl (by decide)

/-!  Lemmas about the Reminder Generator grouping and name dedup.  -/

theorem foldl_setInsert_nodup (l : List String) :
    ∀ acc : List String, acc.Nodup → (l.foldl setInsert acc).Nodup := by
  induction l with
  | nil => exact fun acc h => h
  | cons x l ih =>
    intro acc h
    rw [List.foldl_cons]
    apply ih
    unfold setInsert
    by_cases hx : x ∈ acc
    · rw [if_pos hx]; exact h
    · rw [if_neg hx]
      exact List.nodup_append.mpr ⟨h, List.nodup_singleton x, by simpa using hx⟩

theorem foldl_setInsert_mem (l : List String) :
    ∀ (acc : List String) (y : String),
      y ∈ l.foldl setInsert acc ↔ y ∈ acc ∨ y ∈ l := by
  induction l with
  | nil => simp
  | cons x l ih =>
    intro acc y
    rw [List.foldl_cons, ih]
    unfold setInsert
    by_cases hx : x ∈ acc
    · rw [if_pos hx]
      constructor
      · rintro (h | h)
        · exact Or.inl h
        · exact Or.inr (List.mem_cons_of_mem _ h)
      · rintro (h | h)
        · exact Or.inl h
        · rcases List.mem_cons.mp h with rfl | h'
          · exact Or.inl hx
          · exact Or.inr h'
    · rw [if_neg hx]
      constructor
      · rintro (h | h)
        · rcases List.mem_append.mp h with h' | h'
          · exact Or.inl h'
          · exact Or.inr (by simpa using Or.inl (List.mem_singleton.mp h'))
        · exact Or.inr (List.mem_cons_of_mem _ h)
      · rintro (h | h)
        · exact Or.inl (List.mem_append.mpr (Or.inl h))
        · rcases List.mem_cons.mp h with rfl | h'
          · exact Or.inl (List.mem_append.mpr (Or.inr (by simp)))
          · exact Or.inr h'

/-- The JS `[...new Set(l)]` yields distinct elements. -/
theorem setDedup_nodup (l : List String) : (setDedup l).Nodup :=
  foldl_setInsert_nodup l [] List.nodup_nil

/-- The JS `[...new Set(l)]` keeps exactly the elements of `l`. -/
theorem setDedup_mem (l : List String) (y : String) : y ∈ setDedup l ↔ y ∈ l := by
  unfold setDedup
  rw [foldl_setInsert_mem]
  simp

theorem flatNames_cons (uid : String) (r : GearRequest) (D : List GearRequest) :
    flatNames uid (r :: D) =
      if r.user_id == uid then gearNamesOf r ++ flatNames uid D
      else flatNames uid D := by
  unfold flatNames
  by_cases h : r.user_id == uid
  · simp [List.filter_cons, h]
  · simp [List.filter_cons, h]

theorem countP_eq_one_of_nodup_mem (l : List String) (uid : String)
    (hN : l.Nodup) (hm : uid ∈ l) : l.countP (fun k => k == uid) = 1 := by
  induction l with
  | nil => cases hm
  | cons a l ih =>
    rw [List.countP_cons]
    rcases List.mem_cons.mp hm with rfl | hm'
    · have ha : uid ∉ l := (List.nodup_cons.mp hN).1
      have hc : l.countP (fun k => k == uid) = 0 := by
        rw [List.countP_eq_zero]
        intro b hb
        simp only [beq_iff_eq]
        intro hba
        exact ha (hba ▸ hb)
      simp [hc]
    · have ha : a ∉ l := (List.nodup_cons.mp hN).1
      have hne : a ≠ uid := fun hau => ha (hau ▸ hm')
      rw [ih (List.nodup_cons.mp hN).2 hm']
      simp [hne]

theorem lookup_cons_pair (w k : String) (v : List String)
    (es : List (String × List String)) :
    List.lookup w ((k, v) :: es) = if w = k then some v else List.lookup w es := by
  by_cases h : w = k
  · simp [List.lookup, h]
  · have hb : (w == k) = false := by simp [h]
    simp [List.lookup, h, hb]

theorem lookup_cons_var (w : String) (p : String × List String)
    (es : List (String × List String)) :
    List.lookup w (p :: es) = if w = p.1 then some p.2 else List.lookup w es := by
  obtain ⟨k, v⟩ := p
  exact lookup_cons_pair w k v es

theorem lookup_map_upd (uid : String) (names : List String)
    (acc : List (String × List String)) :
    ∀ w : String,
      List.lookup w (acc.map fun p => if p.1 == uid then (p.1, p.2 ++ names) else p) =
        if w = uid then (List.lookup uid acc).map (fun v => v ++ names)
        else List.lookup w acc := by
  induction acc with
  | nil =>
    intro w
    by_cases h : w = uid <;> simp [h]
  | cons p acc ih =>
    intro w
    rw [List.map_cons]
    have hhead : (if p.1 == uid then (p.1, p.2 ++ names) else p) =
        (p.1, if p.1 == uid then p.2 ++ names else p.2) := by
      by_cases hp : p.1 = uid
      · simp [hp]
      · simp [hp]
    rw [hhead, lookup_cons_pair, ih w, lookup_cons_var, lookup_cons_var]
    by_cases hp : p.1 = uid
    · by_cases hw : w = p.1
      · have hwu : w = uid := hw.trans hp
        simp [hp, hw, hwu]
      · have hwu : ¬ w = uid := by rw [← hp]; exact hw
        simp [hw, hwu]
    · have hup : ¬ uid = p.1 := fun h => hp h.symm
      by_cases hw : w = p.1
      · have hwu : ¬ w = uid := by rw [hw]; exact fun h => hup h.symm
        simp [hp, hw, hwu]
      · simp [hp, hw, hup]

theorem lookup_append_single (acc : List (String × List String)) (uid : String)
    (names : List String) :
    ∀ w : String, List.lookup w (acc ++ [(uid, names)]) =
      match List.lookup w acc with
      | some v => some v
      | none => if w = uid then some names else none := by
  induction acc with
  | nil =>
    intro w
    by_cases h : w = uid
    · simp [List.lookup, h]
    · have hb : (w == uid) = false := by simp [h]
      simp [List.lookup, h, hb]
  | cons p acc ih =>
    intro w
    rw [List.cons_append, lookup_cons_var, lookup_cons_var, ih w]
    by_cases hw : w = p.1
    · rw [if_pos hw, if_pos hw]
    · rw [if_neg hw, if_neg hw]

theorem lookup_eq_none_of_not_any (acc : List (String × List String)) (uid : String)
    (h : acc.any (fun p => p.1 == uid) = false) : List.lookup uid acc = none := by
  induction acc with
  | nil => rfl
  | cons p acc ih =>
    rw [List.any_cons] at h
    have h1 : (p.1 == uid) = false := by
      cases hb : (p.1 == uid) with
      | false => rfl
      | true => rw [hb] at h; simp at h
    have h2 : acc.any (fun p => p.1 == uid) = false := by
      cases hb : acc.any (fun p => p.1 == uid) with
      | false => rfl
      | true => rw [hb] at h; simp at h
    have hne : ¬ uid = p.1 := by
      intro he
      rw [he] at h1
      simp at h1
    rw [lookup_cons_var, if_neg hne, ih h2]

theorem mem_keys_iff_any (acc : List (String × List String)) (uid : String) :
    uid ∈ acc.map Prod.fst ↔ acc.any (fun p => p.1 == uid) = true := by
  rw [List.any_eq_true, List.mem_map]
  constructor
  · rintro ⟨p, hp, rfl⟩
    exact ⟨p, hp, by simp⟩
  · rintro ⟨p, hp, he⟩
    exact ⟨p, hp, (beq_iff_eq.mp he).symm ▸ rfl⟩

theorem keys_pushGroup (acc : List (String × List String)) (uid : String)
    (names : List String) :
    (pushGroup acc uid names).map Prod.fst =
      if acc.any (fun p => p.1 == uid) = true then acc.map Prod.fst
      else acc.map Prod.fst ++ [uid] := by
  unfold pushGroup
  by_cases h : acc.any (fun p => p.1 == uid) = true
  · rw [if_pos h, if_pos h, List.map_map]
    apply List.map_congr_left
    intro p _
    by_cases hp : p.1 = uid <;> simp [hp]
  · rw [if_neg h, if_neg h]
    simp

theorem lookup_isSome_of_any (acc : List (String × List String)) (uid : String)
    (h : acc.any (fun p => p.1 == uid) = true) :
    ∃ v, List.lookup uid acc = some v := by
  induction acc with
  | nil => simp at h
  | cons p acc ih =>
    by_cases hp : uid = p.1
    · exact ⟨p.2, by simp [List.lookup, hp]⟩
    · have h2 : acc.any (fun p => p.1 == uid) = true := by
        rw [List.any_cons] at h
        rcases Bool.or_eq_true_iff.mp h with h' | h'
        · exact absurd (beq_iff_eq.mp h') fun he => hp he.symm
        · exact h'
      obtain ⟨v, hv⟩ := ih h2
      exact ⟨v, by rw [lookup_cons_var, if_neg hp, hv]⟩

theorem lookup_pushGroup (acc : List (String × List String)) (uid : String)
    (names : List String) :
    ∀ w : String, List.lookup w (pushGroup acc uid names) =
      if w = uid then some (((List.lookup uid acc).getD []) ++ names)
      else List.lookup w acc := by
  intro w
  unfold pushGroup
  by_cases h : acc.any (fun p => p.1 == uid) = true
  · rw [if_pos h, lookup_map_upd]
    by_cases hw : w = uid
    · rw [if_pos hw, if_pos hw]
      obtain ⟨v, hv⟩ := lookup_isSome_of_any acc uid h
      rw [hv]
      rfl
    · rw [if_neg hw, if_neg hw]
  · have hfalse : acc.any (fun p => p.1 == uid) = false := by
      cases hx : acc.any fun p => p.1 == uid with
      | false => rfl
      | true => exact absurd hx h
    rw [if_neg h, lookup_append_single]
    have hnone := lookup_eq_none_of_not_any acc uid hfalse
    by_cases hw : w = uid
    · subst hw
      rw [hnone, if_pos rfl, if_pos rfl]
      rfl
    · rw [if_neg hw, if_neg hw]
      cases List.lookup w acc <;> rfl

theorem lookup_groupFold (D : List GearRequest) :
    ∀ (acc : List (String × List String)) (uid : String),
      List.lookup uid (D.foldl (fun a r => pushGroup a r.user_id (gearNamesOf r)) acc) =
        match List.lookup uid acc with
        | some v => some (v ++ flatNames uid D)
        | none =>
          if D.any (fun r => r.user_id == uid) = true then some (flatNames uid D)
          else none := by
  induction D with
  | nil =>
    intro acc uid
    rw [List.foldl_nil]
    rcases hm : List.lookup uid acc with _ | v
    · simp
    · simp [flatNames]
  | cons r D ih =>
    intro acc uid
    rw [List.foldl_cons, ih (pushGroup acc r.user_id (gearNamesOf r)) uid, lookup_pushGroup]
    by_cases hu : uid = r.user_id
    · have hb : (r.user_id == uid) = true := beq_iff_eq.mpr hu.symm
      rw [if_pos hu]
      rcases hm : List.lookup uid acc with _ | v
      · have hm' : List.lookup r.user_id acc = none := hu ▸ hm
        simp [flatNames_cons, hb, List.any_cons, hm']
      · have hm' : List.lookup r.user_id acc = some v := hu ▸ hm
        simp [flatNames_cons, hb, List.any_cons, hm']
    · have hb : (r.user_id == uid) = false := by
        simp only [beq_eq_false_iff_ne, ne_eq]
        exact fun h => hu h.symm
      rw [if_neg hu]
      rcases hm : List.lookup uid acc with _ | v
      · simp [flatNames_cons, hb, List.any_cons, hm]
      · simp [flatNames_cons, hb, List.any_cons, hm]

theorem keys_groupFold_nodup (D : List GearRequest) :
    ∀ acc : List (String × List String),
      (acc.map Prod.fst).Nodup →
      ((D.foldl (fun a r => pushGroup a r.user_id (gearNamesOf r)) acc).map Prod.fst).Nodup := by
  induction D with
  | nil => exact fun acc h => h
  | cons r D ih =>
    intro acc h
    rw [List.foldl_cons]
    apply ih
    rw [keys_pushGroup]
    by_cases hx : acc.any (fun p => p.1 == r.user_id) = true
    · rw [if_pos hx]; exact h
    · rw [if_neg hx]
      refine List.nodup_append.mpr ⟨h, List.nodup_singleton _, ?_⟩
      intro x hxk hxs
      rw [List.mem_singleton] at hxs
      subst hxs
      exact hx ((mem_keys_iff_any acc r.user_id).mp hxk)

theorem mem_keys_groupFold (D : List GearRequest) :
    ∀ (acc : List (String × List String)) (uid : String),
      uid ∈ (D.foldl (fun a r => pushGroup a r.user_id (gearNamesOf r)) acc).map Prod.fst ↔
        uid ∈ acc.map Prod.fst ∨ D.any (fun r => r.user_id == uid) = true := by
  induction D with
  | nil =>
    intro acc uid
    simp
  | cons r D ih =>
    intro acc uid
    rw [List.foldl_cons, ih, keys_pushGroup, List.any_cons]
    by_cases hx : acc.any (fun p => p.1 == r.user_id) = true
    · rw [if_pos hx]
      constructor
      · rintro (h | h)
        · exact Or.inl h
        · exact Or.inr (by simp [h])
      · rintro (h | h)
        · exact Or.inl h
        · rcases Bool.or_eq_true_iff.mp h with h' | h'
          · have he : uid = r.user_id := (beq_iff_eq.mp h').symm
            exact Or.inl (he ▸ (mem_keys_iff_any acc r.user_id).mpr hx)
          · exact Or.inr h'
    · rw [if_neg hx]
      rw [List.mem_append, List.mem_singleton]
      constructor
      · rintro ((h | h) | h)
        · exact Or.inl h
        · exact Or.inr (by simp [h])
        · exact Or.inr (by simp [h])
      · rintro (h | h)
        · exact Or.inl (Or.inl h)
        · rcases Bool.or_eq_true_iff.mp h with h' | h'
          · exact Or.inl (Or.inr (beq_iff_eq.mp h').symm)
          · exact Or.inr h'

theorem lookup_of_mem_nodup (l : List (String × List String)) :
    ∀ p : String × List String, (l.map Prod.fst).Nodup → p ∈ l →
      List.lookup p.1 l = some p.2 := by
  induction l with
  | nil => intro p _ hp; cases hp
  | cons q l ih =>
    intro p hN hp
    rcases List.mem_cons.mp hp with rfl | hp'
    · rw [lookup_cons_var, if_pos rfl]
    · rw [List.map_cons] at hN
      have hN' := List.nodup_cons.mp hN
      have hne : p.1 ≠ q.1 := by
        intro he
        apply hN'.1
        rw [← he]
        exact List.mem_map.mpr ⟨p, hp', rfl⟩
      rw [lookup_cons_var, if_neg hne]
      exact ih p hN'.2 hp'

theorem filter_map_keyed_length (uid : String) (G : List (String × List String))
    (f : (String × List String) → QueueInsert)
    (hf : ∀ p, (f p).user_id = p.1) (hN : (G.map Prod.fst).Nodup)
    (hm : uid ∈ G.map Prod.fst) :
    ((G.map f).filter (fun i => i.user_id == uid)).length = 1 := by
  rw [← List.countP_eq_length_filter, List.countP_map]
  have he : ((fun (i : QueueInsert) => i.user_id == uid) ∘ f) =
      fun p : String × List String => p.1 == uid := by
    funext p
    simp [Function.comp, hf p]
  rw [he]
  have h2 : List.countP (fun p : String × List String => p.1 == uid) G =
      List.countP (fun k : String => k == uid) (G.map Prod.fst) := by
    rw [List.countP_map]
    rfl
  rw [h2]
  exact countP_eq_one_of_nodup_mem _ _ hN hm

/-- Grouped inserts of one reminder sub-task: a recipient present among the
selected rows gets exactly one insert, whose body joins with ", " the
distinct item names of all that recipient's selected requests
(first-occurrence order, each name exactly once). -/
theorem grouped_inserts_spec (D : List GearRequest) (uid : String)
    (title pref dtype : String)
    (h : D.any (fun r => r.user_id == uid) = true) :
    (((groupByUser D).map (fun p => QueueInsert.mk p.1 title
        (String.append pref (String.intercalate ", " (setDedup p.2))) dtype)).filter
      (fun i => i.user_id == uid)).length = 1 ∧
    ∀ i ∈ ((groupByUser D).map (fun p => QueueInsert.mk p.1 title
        (String.append pref (String.intercalate ", " (setDedup p.2))) dtype)).filter
      (fun i => i.user_id == uid),
      i.dataType = dtype ∧ i.title = title ∧
      i.body = String.append pref (String.intercalate ", " (setDedup (flatNames uid D))) ∧
      (setDedup (flatNames uid D)).Nodup ∧
      (∀ x, x ∈ setDedup (flatNames uid D) ↔ x ∈ flatNames uid D) := by
  have hNodup : ((groupByUser D).map Prod.fst).Nodup := by
    rw [groupByUser]
    exact keys_groupFold_nodup D [] (by simp)
  have hmem : uid ∈ (groupByUser D).map Prod.fst := by
    rw [groupByUser]
    exact (mem_keys_groupFold D [] uid).mpr (Or.inr h)
  have hval : ∀ p ∈ groupByUser D, p.2 = flatNames p.1 D := by
    intro p hp
    have h1 := lookup_of_mem_nodup (groupByUser D) p hNodup hp
    have hpk : p.1 ∈ (groupByUser D).map Prod.fst :=
      List.mem_map.mpr ⟨p, hp, rfl⟩
    have hany : D.any (fun r => r.user_id == p.1) = true := by
      rw [groupByUser] at hpk
      rcases (mem_keys_groupFold D [] p.1).mp hpk with h' | h'
      · simp at h'
      · exact h'
    have h2 : List.lookup p.1 (groupByUser D) = some (flatNames p.1 D) := by
      rw [groupByUser, lookup_groupFold]
      simp [List.lookup, hany]
    rw [h1] at h2
    exact Option.some_inj.mp h2
  constructor
  · exact filter_map_keyed_length uid (groupByUser D) _ (fun p => rfl) hNodup hmem
  · intro i hi
    rw [List.mem_filter] at hi
    obtain ⟨him, hiu⟩ := hi
    obtain ⟨p, hp, rfl⟩ := List.mem_map.mp him
    have hpuid : p.1 = uid := beq_iff_eq.mp hiu
    have hv := hval p hp
    refine ⟨rfl, rfl, ?_, setDedup_nodup _, fun x => setDedup_mem _ x⟩
    show String.append _ (String.intercalate ", " (setDedup p.2)) = _
    rw [hv, hpuid]

/-- C8.  In any Reminder Generator run, both the overdue and the due-soon
source rows are grouped per recipient with item names deduplicated: each
recipient appearing among the overdue rows gets exactly one
`overdue_reminder` insert, and each recipient appearing among the due-soon
rows gets exactly one `due_soon_reminder` insert, in each case with the body
joining with ", " the distinct item names of all that recipient's selected
requests (each name exactly once). -/
theorem c8_grouped_dedup (today : Nat) (reqs : List GearRequest) (uid : String) :
    ((overdueOf today reqs).any (fun r => r.user_id == uid) = true →
      ((overdueInserts today reqs).filter (fun i => i.user_id == uid)).length = 1 ∧
      ∀ i ∈ (overdueInserts today reqs).filter (fun i => i.user_id == uid),
        i.dataType = "overdue_reminder" ∧
        i.title = "Overdue Equipment Return" ∧
        i.body = String.append "Please return the following overdue equipment: "
          (String.intercalate ", " (setDedup (flatNames uid (overdueOf today reqs)))) ∧
        (setDedup (flatNames uid (overdueOf today reqs))).Nodup ∧
        (∀ x, x ∈ setDedup (flatNames uid (overdueOf today reqs)) ↔
          x ∈ flatNames uid (overdueOf today reqs))) ∧
    ((dueSoonOf today reqs).any (fun r => r.user_id == uid) = true →
      ((dueSoonInserts today reqs).filter (fun i => i.user_id == uid)).length = 1 ∧
      ∀ i ∈ (dueSoonInserts today reqs).filter (fun i => i.user_id == uid),
        i.dataType = "due_soon_reminder" ∧
        i.title = "Equipment Due Soon" ∧
        i.body = String.append "Please return the following equipment soon: "
          (String.intercalate ", " (setDedup (flatNames uid (dueSoonOf today reqs)))) ∧
        (setDedup (flatNames uid (dueSoonOf today reqs))).Nodup ∧
        (∀ x, x ∈ setDedup (flatNames uid (dueSoonOf today reqs)) ↔
          x ∈ flatNames uid (dueSoonOf today reqs))) := by
  constructor
  · intro h
    rw [overdueInserts]
    exact grouped_inserts_spec (overdueOf today reqs) uid "Overdue Equipment Return"
      "Please return the following overdue equipment: " "overdue_reminder" h
  · intro h
    rw [dueSoonInserts]
    exact grouped_inserts_spec (dueSoonOf today reqs) uid "Equipment Due Soon"
      "Please return the following equipment soon: " "due_soon_reminder" h

/-- The C8 scenario source rows: two overdue Approved requests of the same
recipient, both naming "Tripod". -/
def tripodReqs : List GearRequest :=
  [GearRequest.mk 1 "u1" 5 "Approved" [GearJoin.mk (some "Tripod")],
   GearRequest.mk 2 "u1" 6 "Approved" [GearJoin.mk (some "Tripod")]]

/-- Due-soon scenario rows: two Approved requests of one recipient due today
and tomorrow, both naming "Camera". -/
def dueSoonCameraReqs : List GearRequest :=
  [GearRequest.mk 3 "u2" 10 "Approved" [GearJoin.mk (some "Camera")],
   GearRequest.mk 4 "u2" 11 "Approved" [GearJoin.mk (some "Camera")]]

/-- Closed witness for C8: the Tripod scenario yields exactly one
overdue_reminder insert listing "Tripod" once, and the Camera scenario
exactly one due_soon_reminder insert listing "Camera" once. -/
theorem c8_witness :
    (((overdueInserts 10 tripodReqs).filter (fun i => i.user_id == "u1")).length = 1 ∧
      ∀ i ∈ (overdueInserts 10 tripodReqs).filter (fun i => i.user_id == "u1"),
        i.dataType = "overdue_reminder" ∧
        i.title = "Overdue Equipment Return" ∧
        i.body = String.append "Please return the following overdue equipment: "
          (String.intercalate ", " (setDedup (flatNames "u1" (overdueOf 10 tripodReqs)))) ∧
        (setDedup (flatNames "u1" (overdueOf 10 tripodReqs))).Nodup ∧
        (∀ x, x ∈ setDedup (flatNames "u1" (overdueOf 10 tripodReqs)) ↔
          x ∈ flatNames "u1" (overdueOf 10 tripodReqs))) ∧
    (((dueSoonInserts 10 dueSoonCameraReqs).filter (fun i => i.user_id == "u2")).length = 1 ∧
      ∀ i ∈ (dueSoonInserts 10 dueSoonCameraReqs).filter (fun i => i.user_id == "u2"),
        i.dataType = "due_soon_reminder" ∧
        i.title = "Equipment Due Soon" ∧
        i.body = String.append "Please return the following equipment soon: "
          (String.intercalate ", " (setDedup (flatNames "u2" (dueSoonOf 10 dueSoonCameraReqs)))) ∧
        (setDedup (flatNames "u2" (dueSoonOf 10 dueSoonCameraReqs))).Nodup ∧
        (∀ x, x ∈ setDedup (flatNames "u2" (dueSoonOf 10 dueSoonCameraReqs)) ↔
          x ∈ flatNames "u2" (dueSoonOf 10 dueSoonCameraReqs))) ∧
    overdueInserts 10 tripodReqs =
      [QueueInsert.mk "u1" "Overdue Equipment Return"
        "Please return the following overdue equipment: Tripod" "overdue_reminder"] ∧
    dueSoonInserts 10 dueSoonCameraReqs =
      [QueueInsert.mk "u2" "Equipment Due Soon"
        "Please return the following equipment soon: Camera" "due_soon_reminder"] :=
  ⟨(c8_grouped_dedup 10 tripodReqs "u1").1 (by decide),
   (c8_grouped_dedup 10 dueSoonCameraReqs "u2").2 (by decide),
   by decide, by decide⟩

end CronNest
